import Mathlib

/-!
Verification of the `tms-engine` transport simulation engine.

This file gives a shallow embedding, in Lean 4, of the Go sources of
`tms-engine`: the constant-acceleration kinematics model
(`internal/kinematics`), the directed graph with Floyd-Warshall shortest
paths (`internal/graph`), the per-service state machine
(`internal/service`) and the fixed-timestep two-pass simulation driver
(`internal/engine`).  Numeric `float64` values are modelled as real
numbers; the places where the Go code manufactures `math.Inf(1)` (braking
distances of non-braking vehicles, the Floyd-Warshall distance tables, the
sentinel in `computeMaxAllowedDistance`) are modelled with `EReal`, whose
arithmetic on those paths (`⊤ + x = ⊤`, `x - ⊤ = ⊥`, `¬(⊤ < ⊤)`) agrees
with IEEE infinity arithmetic as exercised by the code.  Go loops that are
not structurally terminating (`advancePosition`, the `Run` loop, shortest
path reconstruction) take an explicit fuel argument; exhausting the fuel is
an error result and models divergence of the Go loop.  Error messages are
abbreviated; only the success/failure structure is modelled.

Theorems at the end of the file settle the specification claims about this
code.
-/

namespace TMSEngine

/-! ### Kinematics (`internal/kinematics`)

The Go `MotionModel` interface has a single registered implementation,
`ConstantAcceleration`; vehicles are modelled with that implementation
directly. -/

/-- ConstantAcceleration is the fixed accel/decel rate motion model
(`kinematics.ConstantAcceleration`). -/
structure ConstantAcceleration where
  AAcc : ℝ
  ADcc : ℝ
  VMaxVal : ℝ

namespace ConstantAcceleration

/-- VMax returns the maximum permissible speed (`ConstantAcceleration.VMax`). -/
def vmax (c : ConstantAcceleration) : ℝ := c.VMaxVal

/-- BrakingDistance: minimum stopping distance from velocity `v`
(`ConstantAcceleration.BrakingDistance`); `math.Inf(1)` when `ADcc ≤ 0`. -/
noncomputable def brakingDistance (c : ConstantAcceleration) (v : ℝ) : EReal :=
  if c.ADcc ≤ 0 then ⊤ else (((v * v) / (2 * c.ADcc) : ℝ) : EReal)

/-- BrakingDistanceTo: distance to decelerate from `v` to `targetV`
(`ConstantAcceleration.BrakingDistanceTo`); `math.Inf(1)` when `ADcc ≤ 0`. -/
noncomputable def brakingDistanceTo (c : ConstantAcceleration) (v targetV : ℝ) : EReal :=
  if c.ADcc ≤ 0 then ⊤
  else if v ≤ targetV then ((0 : ℝ) : EReal)
  else (((v * v - targetV * targetV) / (2 * c.ADcc) : ℝ) : EReal)

/-- VelocityAfterBraking: terminal velocity after braking from `v0` over
`dist` metres (`ConstantAcceleration.VelocityAfterBraking`). -/
noncomputable def velocityAfterBraking (c : ConstantAcceleration) (v0 dist : ℝ) : ℝ :=
  if c.ADcc ≤ 0 then v0
  else Real.sqrt (max 0 (v0 * v0 - 2 * c.ADcc * dist))

/-- AccelerateStep: `(distance travelled, new velocity)` over a timestep
`dt` toward `targetV` (`ConstantAcceleration.AccelerateStep`).  Go's
`v >= targetV` is written `targetV ≤ v`. -/
noncomputable def accelerateStep (c : ConstantAcceleration) (v targetV dt : ℝ) : ℝ × ℝ :=
  if c.AAcc ≤ 0 ∨ targetV ≤ v then (targetV * dt, targetV)
  else
    let tToTarget := (targetV - v) / c.AAcc
    if tToTarget ≤ dt then
      (v * tToTarget + 0.5 * c.AAcc * tToTarget * tToTarget + targetV * (dt - tToTarget), targetV)
    else
      (v * dt + 0.5 * c.AAcc * dt * dt, v + c.AAcc * dt)

/-- DecelerateStep: `(distance travelled, new velocity)` braking toward
`targetV` over `dt` (`ConstantAcceleration.DecelerateStep`). -/
noncomputable def decelerateStep (c : ConstantAcceleration) (v targetV dt : ℝ) : ℝ × ℝ :=
  if c.ADcc ≤ 0 ∨ v ≤ targetV then (targetV * dt, targetV)
  else
    let tToTarget := (v - targetV) / c.ADcc
    if tToTarget ≤ dt then
      (max 0 (v * tToTarget - 0.5 * c.ADcc * tToTarget * tToTarget) + targetV * (dt - tToTarget),
        targetV)
    else
      (max 0 (v * dt - 0.5 * c.ADcc * dt * dt), v - c.ADcc * dt)

end ConstantAcceleration

/-! ### Graph (`internal/graph`) -/

/-- NodeID is an opaque string identifier (`graph.NodeID`). -/
abbrev NodeID := String

/-- EdgeID is an opaque string identifier (`graph.EdgeID`). -/
abbrev EdgeID := String

/-- PathID is an opaque string identifier (`graph.PathID`). -/
abbrev PathID := String

/-- Coordinate is a 2D position in metres (`graph.Coordinate`); informational. -/
structure Coordinate where
  x : ℝ
  y : ℝ

/-- Node is a point in the network (`graph.Node`).  The location and type tag
are informational; the engine never branches on them. -/
structure Node where
  id : NodeID
  loc : Coordinate
  type : String

/-- Edge is a directed connection with a length and an optional speed limit
(`graph.Edge`). -/
structure Edge where
  id : EdgeID
  u : NodeID
  v : NodeID
  length : ℝ
  speedLimit : Option ℝ

/-- GraphData is the serialisable graph input (`graph.GraphData`). -/
structure GraphData where
  nodes : List Node
  edges : List Edge

/-- Position is a point along a directed edge (`graph.Position`). -/
structure Position where
  edge : EdgeID
  distanceAlongEdge : ℝ

/-- PathInfo is the result of a shortest-path query (`graph.PathInfo`). -/
structure PathInfo where
  id : PathID
  route : List NodeID
  length : ℝ

/-- Graph is the built network (`graph.Graph`).  The Go struct's map indices
(`nodeMap`, `edgeMap`, `edgeByNodes`) and the lazily computed Floyd-Warshall
tables and path cache are modelled as pure functions of the two lists: the
graph is immutable once built (all `AddNode`/`AddEdge` calls happen inside
`NewGraph`, before any query), so Go's memoization is semantically
transparent. -/
structure Graph where
  nodes : List Node
  edges : List Edge

/-- AddNode (`Graph.AddNode`): rejects a duplicate node id. -/
def addNode (g : Graph) (n : Node) : Except String Graph :=
  if g.nodes.any (fun m => m.id == n.id) then .error ("node exists: " ++ n.id)
  else .ok { g with nodes := g.nodes ++ [n] }

/-- AddEdge (`Graph.AddEdge`): rejects a duplicate edge id or a missing
endpoint, in the Go check order. -/
def addEdge (g : Graph) (e : Edge) : Except String Graph :=
  if g.edges.any (fun f => f.id == e.id) then .error ("edge exists: " ++ e.id)
  else if !(g.nodes.any (fun m => m.id == e.u)) then .error ("source node not found: " ++ e.u)
  else if !(g.nodes.any (fun m => m.id == e.v)) then .error ("target node not found: " ++ e.v)
  else .ok { g with edges := g.edges ++ [e] }

/-- NewGraph (`graph.NewGraph`): insert nodes then edges in input order. -/
def newGraph (data : GraphData) : Except String Graph := do
  let g ← data.nodes.foldlM addNode { nodes := [], edges := [] }
  data.edges.foldlM addEdge g

/-- pathKey returns the canonical cache key for a start/end pair
(`graph.pathKey`). -/
def pathKey (s t : NodeID) : PathID := s ++ "->" ++ t

/-- GetEdgeByID (`Graph.GetEdgeByID`).  Edge ids are unique after
`AddEdge` validation, so the Go map lookup is a first-match search. -/
def getEdgeByID (g : Graph) (id : EdgeID) : Except String Edge :=
  match g.edges.find? (fun e => e.id == id) with
  | some e => .ok e
  | none => .error ("edge not found: " ++ id)

/-- GetEdge (`Graph.GetEdge`): the directed edge from `u` to `v`.  The Go
`edgeByNodes` map is written on every insertion, so a duplicate `(u, v)`
pair resolves to the last inserted edge. -/
def getEdge (g : Graph) (u v : NodeID) : Except String Edge :=
  match (g.edges.filter (fun e => e.u == u && e.v == v)).getLast? with
  | some e => .ok e
  | none => .error ("no edge from " ++ u ++ " to " ++ v)

/-- FWTables holds the Floyd-Warshall distance and next-hop tables
(`Graph.dist` / `Graph.nextNode`).  The Go maps are keyed only on node ids;
`getShortestPath` guards membership before reading them, so total functions
are an adequate model. -/
structure FWTables where
  dist : NodeID → NodeID → EReal
  next : NodeID → NodeID → Option NodeID

/-- update2 overwrites one entry of a two-argument table. -/
def update2 {α : Type} (m : NodeID → NodeID → α) (i j : NodeID) (x : α) :
    NodeID → NodeID → α :=
  fun a b => if a = i ∧ b = j then x else m a b

/-- fwInit is the table state after the initialisation loops of
`computeShortestPaths`: every distance `+Inf`, diagonal `0`, then each edge
written in input order (a later duplicate `(u,v)` edge overwrites). -/
noncomputable def fwInit (g : Graph) : FWTables :=
  g.edges.foldl
    (fun t e => { dist := update2 t.dist e.u e.v ((e.length : ℝ) : EReal),
                  next := update2 t.next e.u e.v (some e.v) })
    { dist := fun i j => if i = j then ((0 : ℝ) : EReal) else ⊤,
      next := fun _ _ => none }

/-- fwRelax is the triple relaxation loop of `computeShortestPaths`. -/
noncomputable def fwRelax (ids : List NodeID) (t0 : FWTables) : FWTables :=
  ids.foldl
    (fun t k =>
      ids.foldl
        (fun t i =>
          ids.foldl
            (fun t j =>
              let d := t.dist i k + t.dist k j
              if d < t.dist i j then
                { dist := update2 t.dist i j d, next := update2 t.next i j (t.next i k) }
              else t)
            t)
        t)
    t0

/-- fwTables is the full Floyd-Warshall computation (`computeShortestPaths`). -/
noncomputable def fwTables (g : Graph) : FWTables :=
  fwRelax (g.nodes.map (fun n => n.id)) (fwInit g)

/-- reconstructPathGo walks the next-hop table from `u` toward `v`
(`Graph.reconstructPath`), accumulating the route.  A missing next hop (or
the Go sentinel check `n == ""`) yields the empty route, Go's `nil`.  The
fuel bounds the walk; exhaustion (which models the Go loop cycling forever,
possible only with negative-length cycles) also yields the empty route. -/
def reconstructPathGo (nextT : NodeID → NodeID → Option NodeID) (v : NodeID) :
    ℕ → NodeID → List NodeID → List NodeID
  | 0, _, _ => []
  | fuel + 1, u, acc =>
    if u = v then acc
    else
      match nextT u v with
      | none => []
      | some n => if n = "" then [] else reconstructPathGo nextT v fuel n (acc ++ [n])

/-- reconstructPath (`Graph.reconstructPath`): the route from `u` to `v`. -/
def reconstructPath (nextT : NodeID → NodeID → Option NodeID) (fuel : ℕ) (u v : NodeID) :
    List NodeID :=
  reconstructPathGo nextT v fuel u [u]

/-- GetShortestPath (`Graph.GetShortestPath`).  The `start == end` trivial
path is returned before any table lookup.  The Go `d, ok := dist[start][end]`
read fails (`ok == false`) exactly when `start` or `end` is not a known node;
`math.IsInf(d, 1)` corresponds to `d = ⊤`. -/
noncomputable def getShortestPath (g : Graph) (a b : NodeID) : Except String PathInfo :=
  if a = b then .ok { id := pathKey a b, route := [a], length := 0 }
  else
    let ids := g.nodes.map (fun n => n.id)
    if ids.contains a ∧ ids.contains b then
      let t := fwTables g
      if t.dist a b = ⊤ then .error ("no path from " ++ a ++ " to " ++ b)
      else
        .ok { id := pathKey a b, route := reconstructPath t.next (ids.length + 1) a b,
              length := (t.dist a b).toReal }
    else .error ("no path from " ++ a ++ " to " ++ b)

/-- GetNextEdge (`Graph.GetNextEdge`): the first edge on the shortest path
from `u` toward `dest`. -/
noncomputable def getNextEdge (g : Graph) (u dest : NodeID) : Except String Edge := do
  let path ← getShortestPath g u dest
  match path.route with
  | r0 :: r1 :: _ => getEdge g r0 r1
  | _ => .error ("already at destination " ++ dest)

/-- GetPathStartPosition (`Graph.GetPathStartPosition`): distance 0 on the
first edge of the shortest path from `u` to `v`. -/
noncomputable def getPathStartPosition (g : Graph) (u v : NodeID) : Except String Position := do
  let path ← getShortestPath g u v
  match path.route with
  | r0 :: r1 :: _ => do
    let e ← getEdge g r0 r1
    .ok { edge := e.id, distanceAlongEdge := 0 }
  | _ => .error ("no edges on path from " ++ u ++ " to " ++ v)

/-! ### Service state (`internal/service`) -/

/-- ServiceState is the motion phase of a service (`service.ServiceState`). -/
inductive ServiceState
  | stationary
  | dwelling
  | accelerating
  | decelerating
  | cruising
deriving DecidableEq

/-- RouteStop is a node on a route with a dwell time (`service.RouteStop`). -/
structure RouteStop where
  nodeID : NodeID
  tDwell : ℝ

/-- Vehicle holds static vehicle parameters (`service.Vehicle`).  The Go
`Kinem` field has interface type `kinematics.MotionModel`, whose sole
registered implementation is `ConstantAcceleration`; the field is modelled
with that implementation. -/
structure Vehicle where
  name : String
  length : ℝ
  kinem : ConstantAcceleration

/-- Service is the static definition of a scheduled service
(`service.Service`). -/
structure Service where
  serviceID : String
  initialPosition : NodeID
  route : List RouteStop
  vehicle : Vehicle
  departureDelay : ℝ

/-- SimService is a `Service` plus live simulation state
(`service.SimService`). -/
structure SimService where
  service : Service
  currentPosition : Position
  state : ServiceState
  velocity : ℝ
  remainingDwell : ℝ
  nextStop : NodeID
  nextStopIndex : ℕ

/-- serviceID of the embedded static service. -/
def SimService.serviceID (s : SimService) : String := s.service.serviceID

/-- vehicle of the embedded static service. -/
def SimService.vehicle (s : SimService) : Vehicle := s.service.vehicle

/-- route of the embedded static service. -/
def SimService.route (s : SimService) : List RouteStop := s.service.route

/-- departureDelay of the embedded static service. -/
def SimService.departureDelay (s : SimService) : ℝ := s.service.departureDelay

/-- GetFirstStop (`service.GetFirstStop`): the first target stop and its
route index. -/
def getFirstStop (svc : Service) : Except String (NodeID × ℕ) :=
  match svc.route with
  | [] => .error ("service has no route stops: " ++ svc.serviceID)
  | r0 :: rest =>
    if svc.initialPosition = r0.nodeID then
      match rest with
      | [] => .error ("initial position is the only stop: " ++ svc.serviceID)
      | r1 :: _ => .ok (r1.nodeID, 1)
    else .ok (r0.nodeID, 0)

/-- NewSimService (`service.NewSimService`). -/
def newSimService (svc : Service) (initialPos : Position) : Except String SimService := do
  let fs ← getFirstStop svc
  .ok { service := svc, currentPosition := initialPos, state := .stationary, velocity := 0,
        remainingDwell := 0, nextStop := fs.1, nextStopIndex := fs.2 }

/-- BrakingDistance of a service at its current velocity
(`SimService.BrakingDistance`). -/
noncomputable def SimService.brakingDistance (s : SimService) : EReal :=
  s.vehicle.kinem.brakingDistance s.velocity

/-- defaultRouteStop stands for Go's behaviour on an out-of-range route
index (a panic); the index stays in range in every reachable state. -/
def defaultRouteStop : RouteStop := { nodeID := "", tDwell := 0 }

/-- advanceNextStop (`SimService.advanceNextStop`): cyclic increment of the
next-stop pointer. -/
def SimService.advanceNextStop (s : SimService) : SimService :=
  let idx := (s.nextStopIndex + 1) % s.route.length
  { s with nextStopIndex := idx, nextStop := (s.route.getD idx defaultRouteStop).nodeID }

/-- startDwell (`SimService.startDwell`): enter the dwelling state, zero the
velocity, load the arrived stop's dwell time, then advance the pointer. -/
def SimService.startDwell (s : SimService) : SimService :=
  SimService.advanceNextStop
    { s with state := .dwelling, velocity := 0,
             remainingDwell := (s.route.getD s.nextStopIndex defaultRouteStop).tDwell }

/-- endDwell (`SimService.endDwell`): re-enter accelerating with velocity 0.
It does not touch the next-stop pointer. -/
def SimService.endDwell (s : SimService) : SimService :=
  { s with state := .accelerating, velocity := 0, remainingDwell := 0 }

/-- AdvanceDwell (`SimService.AdvanceDwell`): decrement the remaining dwell
by `dt`; end the dwell when it reaches `≤ 0`. -/
noncomputable def SimService.advanceDwell (s : SimService) (dt : ℝ) : SimService :=
  let s1 := if s.state ≠ .dwelling then s.startDwell else s
  let s2 := { s1 with remainingDwell := s1.remainingDwell - dt }
  if s2.remainingDwell ≤ 0 then s2.endDwell else s2

/-- ArriveAtStop (`SimService.ArriveAtStop`). -/
def SimService.arriveAtStop (s : SimService) : SimService := s.startDwell

/-- ServiceLog is the observable snapshot of a service
(`service.ServiceLog`). -/
structure ServiceLog where
  serviceID : String
  currentPosition : Position
  state : ServiceState
  velocity : ℝ
  remainingDwell : ℝ
  nextStop : NodeID

/-- GetLog (`SimService.GetLog`). -/
def SimService.getLog (s : SimService) : ServiceLog :=
  { serviceID := s.serviceID, currentPosition := s.currentPosition, state := s.state,
    velocity := s.velocity, remainingDwell := s.remainingDwell, nextStop := s.nextStop }

/-! ### Simulation driver (`internal/engine`) -/

/-- SimulationMeta (`engine.SimulationMeta`). -/
structure SimulationMeta where
  simulationID : String
  runTime : ℝ
  timeStep : ℝ

/-- SimulationInput (`engine.SimulationInput`). -/
structure SimulationInput where
  meta : SimulationMeta
  graphData : GraphData
  serviceList : List Service

/-- SimulationLogRow (`engine.SimulationLogRow`). -/
structure SimulationLogRow where
  timestamp : ℝ
  serviceLogs : List ServiceLog

/-- SimulationLog (`engine.SimulationLog`). -/
structure SimulationLog where
  meta : SimulationMeta
  output : List SimulationLogRow

/-- SpeedLimitInfo (`engine.speedLimitInfo`). -/
structure SpeedLimitInfo where
  currentMax : ℝ
  distToChange : ℝ
  nextMax : ℝ

/-- TMS is the simulation engine state (`engine.TMS`). -/
structure TMS where
  meta : SimulationMeta
  graph : Graph
  services : List SimService
  curTime : ℝ

/-- newTMSStep is the service-construction loop body of `engine.NewTMS`:
locate the first stop, place the service, and append it. -/
noncomputable def newTMSStep (g : Graph) (acc : List SimService) (svc : Service) :
    Except String (List SimService) := do
  let fs ← getFirstStop svc
  let initialPos ← getPathStartPosition g svc.initialPosition fs.1
  let simSvc ← newSimService svc initialPos
  .ok (acc ++ [simSvc])

/-- NewTMS (`engine.NewTMS`): build the graph and place each service at its
initial position. -/
noncomputable def newTMS (input : SimulationInput) : Except String TMS := do
  let g ← newGraph input.graphData
  let services ← input.serviceList.foldlM (newTMSStep g) ([] : List SimService)
  .ok { meta := input.meta, graph := g, services := services, curTime := 0 }

/-- minMAsOf is pass 1 of `TMS.step`: the braking-distance map, frozen at
step start.  Go's `map[string]float64` is modelled as an association list
(insertion order preserved; a duplicate service id overwrites). -/
noncomputable def minMAsOf (services : List SimService) : List (String × EReal) :=
  services.map (fun s => (s.serviceID, s.brakingDistance))

/-- lookupMA reads the braking map the way a Go map read does: the last
write wins and a missing key yields the zero value. -/
def lookupMA (m : List (String × EReal)) (id : String) : EReal :=
  match (m.filter (fun p => p.1 == id)).getLast? with
  | some p => p.2
  | none => 0

/-- distanceToNextStop (`TMS.distanceToNextStop`). -/
noncomputable def distanceToNextStop (g : Graph) (svc : SimService) : Except String ℝ := do
  let edge ← getEdgeByID g svc.currentPosition.edge
  let remainingOnEdge := edge.length - svc.currentPosition.distanceAlongEdge
  if edge.v = svc.nextStop then .ok remainingOnEdge
  else do
    let path ← getShortestPath g edge.v svc.nextStop
    .ok (remainingOnEdge + path.length)

/-- getSpeedLimitInfo (`TMS.getSpeedLimitInfo`). -/
noncomputable def getSpeedLimitInfo (g : Graph) (svc : SimService) :
    Except String SpeedLimitInfo := do
  let edge ← getEdgeByID g svc.currentPosition.edge
  let currentMax :=
    match edge.speedLimit with
    | some l => if l < svc.vehicle.kinem.vmax then l else svc.vehicle.kinem.vmax
    | none => svc.vehicle.kinem.vmax
  let distToChange := edge.length - svc.currentPosition.distanceAlongEdge
  if edge.v = svc.nextStop then
    .ok { currentMax := currentMax, distToChange := distToChange, nextMax := 0 }
  else
    let nextMax :=
      match getNextEdge g edge.v svc.nextStop with
      | .ok nextEdge =>
        match nextEdge.speedLimit with
        | some l => if l < svc.vehicle.kinem.vmax then l else svc.vehicle.kinem.vmax
        | none => svc.vehicle.kinem.vmax
      | .error _ => svc.vehicle.kinem.vmax
    .ok { currentMax := currentMax, distToChange := distToChange, nextMax := nextMax }

/-- maxFloat64 is the exact value of Go's `math.MaxFloat64`, returned by
`computeMaxAllowedDistance` when no other service constrains movement. -/
noncomputable def maxFloat64 : ℝ := 2 ^ (1024 : ℕ) - 2 ^ (971 : ℕ)

/-- computeMaxAllowedDistance (`TMS.computeMaxAllowedDistance`): the
farthest the subject may travel without entering any same-edge, strictly
ahead service's protected zone.  The Go function's error return is always
`nil`, so the model returns a plain real.  The running minimum lives in
`EReal` exactly as the Go float does: it starts at `math.Inf(1)` and a
candidate whose braking map entry is `+Inf` contributes `allowed = -Inf`.
`maFold` is the loop body over one other service. -/
noncomputable def maFold (svc : SimService) (minMAs : List (String × EReal))
    (maxDist : EReal) (other : SimService) : EReal :=
  if other.serviceID = svc.serviceID then maxDist
  else if other.currentPosition.edge ≠ svc.currentPosition.edge then maxDist
  else if other.currentPosition.distanceAlongEdge ≤ svc.currentPosition.distanceAlongEdge then
    maxDist
  else
    let safetyZoneStart : EReal :=
      ((other.currentPosition.distanceAlongEdge - other.vehicle.length : ℝ) : EReal) -
        lookupMA minMAs other.serviceID
    let allowed := safetyZoneStart - ((svc.currentPosition.distanceAlongEdge : ℝ) : EReal)
    if allowed < maxDist then allowed else maxDist

/-- computeMaxAllowedDistance body, continued: the loop over the other
services folds `maFold`, starting from `math.Inf(1)`. -/
noncomputable def computeMaxAllowedDistance (svc : SimService) (services : List SimService)
    (minMAs : List (String × EReal)) : ℝ :=
  let maxDist : EReal := services.foldl (maFold svc minMAs) ⊤
  if maxDist = ⊤ then maxFloat64 else (max 0 maxDist).toReal

/-- advancePosition (`TMS.advancePosition`): walk the service forward `dist`
metres along the graph toward its next stop, returning whether it arrived.
The fuel bounds the edge-crossing loop; exhausting it is an error and models
the Go loop failing to terminate (possible only with non-positive edge
lengths). -/
noncomputable def advancePosition (g : Graph) :
    ℕ → SimService → ℝ → Except String (Bool × SimService)
  | 0, _, _ => .error "advancePosition: edge-crossing bound exhausted"
  | fuel + 1, svc, dist =>
    if dist ≤ 0 then .ok (false, svc)
    else do
      let edge ← getEdgeByID g svc.currentPosition.edge
      let remaining := edge.length - svc.currentPosition.distanceAlongEdge
      if dist < remaining then
        .ok (false, { svc with currentPosition :=
          { svc.currentPosition with
              distanceAlongEdge := svc.currentPosition.distanceAlongEdge + dist } })
      else if edge.v = svc.nextStop then
        .ok (true, { svc with currentPosition :=
          { svc.currentPosition with distanceAlongEdge := edge.length } })
      else do
        let nextEdge ← getNextEdge g edge.v svc.nextStop
        advancePosition g fuel
          { svc with currentPosition := { edge := nextEdge.id, distanceAlongEdge := 0 } }
          (dist - remaining)

/-- proposeMovement (`engine.proposeMovement`): the unconstrained kinematic
proposal `(distance, newVelocity, newState)` with the four-priority branch
order of the source. -/
noncomputable def proposeMovement (svc : SimService) (dt distToStop : ℝ)
    (sl : SpeedLimitInfo) : ℝ × ℝ × ServiceState :=
  let v := svc.velocity
  let m := svc.vehicle.kinem
  let effectiveVMax := sl.currentMax
  if ((distToStop : ℝ) : EReal) ≤ m.brakingDistance v then
    let r := m.decelerateStep v 0 dt
    if r.2 ≤ 0 then (r.1, 0, .dwelling) else (r.1, r.2, .decelerating)
  else if 0 < sl.nextMax ∧ sl.nextMax < effectiveVMax ∧ sl.nextMax < v ∧
      ((sl.distToChange : ℝ) : EReal) ≤ m.brakingDistanceTo v sl.nextMax then
    let r := m.decelerateStep v sl.nextMax dt
    if r.2 ≤ sl.nextMax then (r.1, r.2, .cruising) else (r.1, r.2, .decelerating)
  else if effectiveVMax < v then
    let r := m.decelerateStep v effectiveVMax dt
    if r.2 ≤ effectiveVMax then (r.1, r.2, .cruising) else (r.1, r.2, .decelerating)
  else
    match svc.state with
    | .accelerating =>
      let r := m.accelerateStep v effectiveVMax dt
      if effectiveVMax ≤ r.2 then (r.1, effectiveVMax, .cruising)
      else (r.1, r.2, .accelerating)
    | .cruising => (effectiveVMax * dt, effectiveVMax, .cruising)
    | .decelerating =>
      let r := m.decelerateStep v 0 dt
      if r.2 ≤ 0 then (r.1, 0, .dwelling) else (r.1, r.2, .decelerating)
    | _ => (0, v, svc.state)

/-- constrainedKinematics (`engine.constrainedKinematics`): velocity and
state after travelling the MA-trimmed distance under maximum braking. -/
noncomputable def constrainedKinematics (svc : SimService) (grantedDist : ℝ) :
    ℝ × ServiceState :=
  let newV := svc.vehicle.kinem.velocityAfterBraking svc.velocity grantedDist
  if newV ≤ 0 then (0, .dwelling) else (newV, .decelerating)

/-- stepMovingService is the motion-pass loop body of `TMS.step` for a
service that is neither stationary nor dwelling (engine.go lines 94-131):
propose, trim by the MA, apply, and detect arrival. -/
noncomputable def stepMovingService (g : Graph) (minMAs : List (String × EReal))
    (services : List SimService) (dt : ℝ) (svc : SimService) : Except String SimService := do
  let distToStop ← distanceToNextStop g svc
  let sl ← getSpeedLimitInfo g svc
  let prop := proposeMovement svc dt distToStop sl
  let maxAllowed := computeMaxAllowedDistance svc services minMAs
  let grantedDist := min prop.1 maxAllowed
  let vs := if grantedDist < prop.1 then constrainedKinematics svc grantedDist
            else (prop.2.1, prop.2.2)
  let res ← advancePosition g (g.nodes.length + 1) svc grantedDist
  if res.1 then .ok res.2.arriveAtStop
  else .ok { res.2 with velocity := vs.1, state := vs.2 }

/-- stepService is the full motion-pass loop body of `TMS.step`, including
the stationary and dwelling short-circuits. -/
noncomputable def stepService (g : Graph) (minMAs : List (String × EReal))
    (services : List SimService) (curTime dt : ℝ) (svc : SimService) :
    Except String SimService :=
  match svc.state with
  | .stationary =>
    if curTime < svc.departureDelay then .ok svc
    else .ok { svc with state := .accelerating }
  | .dwelling => .ok (svc.advanceDwell dt)
  | _ => stepMovingService g minMAs services dt svc

/-- motionPass is pass 2 of `TMS.step`: services updated in input order.
The Go slice holds pointers, so a later service's MA check observes the
already-updated positions of earlier services; `done` is that updated
prefix. -/
noncomputable def motionPass (g : Graph) (minMAs : List (String × EReal)) (curTime dt : ℝ) :
    List SimService → List SimService → Except String (List SimService)
  | done, [] => .ok done
  | done, svc :: rest => do
    let svc' ← stepService g minMAs (done ++ svc :: rest) curTime dt svc
    motionPass g minMAs curTime dt (done ++ [svc']) rest

/-- stepF (`TMS.step`): one timestep, returning the log row and the updated
engine state.  `curTime` is advanced by the caller (`Run`), as in Go. -/
noncomputable def TMS.stepF (t : TMS) : Except String (SimulationLogRow × TMS) := do
  let dt := t.meta.timeStep
  let minMAs := minMAsOf t.services
  let services' ← motionPass t.graph minMAs t.curTime dt [] t.services
  .ok ({ timestamp := t.curTime, serviceLogs := services'.map SimService.getLog },
       { t with services := services' })

/-- runAux is the `Run` loop: step, append the row, advance `curTime`,
while `curTime ≤ runTime`.  The fuel bounds the number of iterations;
exhausting it is an error and models the Go loop never finishing (which
happens when `timeStep ≤ 0` and the loop is entered). -/
noncomputable def runAux : ℕ → TMS → Except String (List SimulationLogRow)
  | 0, _ => .error "run: iteration bound exhausted"
  | fuel + 1, t =>
    if t.curTime ≤ t.meta.runTime then do
      let r ← t.stepF
      let rows ← runAux fuel { r.2 with curTime := r.2.curTime + t.meta.timeStep }
      .ok (r.1 :: rows)
    else .ok []

/-- runWith runs the simulation loop with an explicit iteration bound. -/
noncomputable def TMS.runWith (fuel : ℕ) (t : TMS) : Except String SimulationLog :=
  (runAux fuel t).map (fun rows => { meta := t.meta, output := rows })

/-- run (`TMS.Run`): the fuel `⌊runTime/timeStep⌋.toNat + 2` strictly
exceeds the loop's iteration count whenever `timeStep > 0`, so `run` then
agrees with the Go `Run`; for `timeStep ≤ 0` the Go loop either exits at
once (negative `runTime`, also fuel-covered) or never terminates, which the
model reports as a fuel error. -/
noncomputable def TMS.run (t : TMS) : Except String SimulationLog :=
  t.runWith ((⌊t.meta.runTime / t.meta.timeStep⌋).toNat + 2)

/-! ### Claim statements

Each `claimCnStated` is the literal formalisation of claim Cn as written;
the theorems section settles them. -/

/-- vehicleLengthOf finds the vehicle length of the input service with the
given id (0 if absent), used to read claim C1's `vehicle_ahead.length`. -/
def vehicleLengthOf (input : SimulationInput) (id : String) : ℝ :=
  ((input.serviceList.find? (fun s => s.serviceID == id)).map (fun s => s.vehicle.length)).getD 0

/-- claimC1Stated: claim C1 as written — for every accepted input, at the
end of every step, same-edge pairs are separated by at least the leading
vehicle's length (the leader `a` being the one at the larger distance). -/
def claimC1Stated : Prop :=
  ∀ (input : SimulationInput) (tms : TMS) (log : SimulationLog),
    newTMS input = .ok tms → tms.run = .ok log →
    ∀ row ∈ log.output, ∀ a ∈ row.serviceLogs, ∀ b ∈ row.serviceLogs,
      a.serviceID ≠ b.serviceID →
      a.currentPosition.edge = b.currentPosition.edge →
      b.currentPosition.distanceAlongEdge ≤ a.currentPosition.distanceAlongEdge →
      vehicleLengthOf input a.serviceID ≤
        a.currentPosition.distanceAlongEdge - b.currentPosition.distanceAlongEdge

/-- claimC2Stated: claim C2 as written — inputs whose kinematics parameters
are nonnegative keep every logged velocity in `[0, VMax]`.  Log rows list
services positionally in input order. -/
def claimC2Stated : Prop :=
  ∀ (input : SimulationInput) (tms : TMS) (log : SimulationLog),
    (∀ svc ∈ input.serviceList, 0 ≤ svc.vehicle.kinem.VMaxVal ∧
      0 ≤ svc.vehicle.kinem.AAcc ∧ 0 ≤ svc.vehicle.kinem.ADcc) →
    newTMS input = .ok tms → tms.run = .ok log →
    ∀ row ∈ log.output,
      ∀ (i : ℕ) (h1 : i < row.serviceLogs.length) (h2 : i < input.serviceList.length),
        0 ≤ (row.serviceLogs.get ⟨i, h1⟩).velocity ∧
        (row.serviceLogs.get ⟨i, h1⟩).velocity ≤
          (input.serviceList.get ⟨i, h2⟩).vehicle.kinem.VMaxVal

/-- claimC3Stated: claim C3 as written — with `timeStep > 0`, `Run`
produces `⌊runTime/timeStep⌋ + 1` rows with timestamps `i·timeStep`. -/
def claimC3Stated : Prop :=
  ∀ (input : SimulationInput) (tms : TMS) (log : SimulationLog),
    newTMS input = .ok tms → 0 < input.meta.timeStep → tms.run = .ok log →
    (log.output.length : ℤ) = ⌊input.meta.runTime / input.meta.timeStep⌋ + 1 ∧
    ∀ (i : ℕ) (hi : i < log.output.length),
      (log.output.get ⟨i, hi⟩).timestamp = (i : ℝ) * input.meta.timeStep

/-- claimC5Stated: claim C5 as written — a dwelling service whose remaining
dwell reaches `≤ 0` this step advances its next-stop pointer cyclically and
re-enters accelerating with velocity 0. -/
def claimC5Stated : Prop :=
  ∀ (svc : SimService) (dt : ℝ), svc.state = .dwelling → svc.remainingDwell - dt ≤ 0 →
    (svc.advanceDwell dt).state = .accelerating ∧ (svc.advanceDwell dt).velocity = 0 ∧
    (svc.advanceDwell dt).nextStopIndex = (svc.nextStopIndex + 1) % svc.route.length

/-- claimC6Stated: claim C6 as written — `BrakingDistanceTo` returns 0
whenever `v ≤ vT`, for every model instance including those with
`a_dcc ≤ 0`. -/
def claimC6Stated : Prop :=
  ∀ (c : ConstantAcceleration) (v vT : ℝ), v ≤ vT →
    c.brakingDistanceTo v vT = ((0 : ℝ) : EReal)

/-- accelerateStepClaim is claim C7's description of `AccelerateStep`,
written with the claim's `t* = (vT − v)/a_acc` formulas, to be compared
with the source-derived `accelerateStep`. -/
noncomputable def accelerateStepClaim (c : ConstantAcceleration) (v vT dt : ℝ) : ℝ × ℝ :=
  if c.AAcc ≤ 0 ∨ vT ≤ v then (vT * dt, vT)
  else if (vT - v) / c.AAcc ≤ dt then
    (v * ((vT - v) / c.AAcc) + 2⁻¹ * c.AAcc * ((vT - v) / c.AAcc) ^ 2 +
      vT * (dt - (vT - v) / c.AAcc), vT)
  else (v * dt + 2⁻¹ * c.AAcc * dt ^ 2, v + c.AAcc * dt)

/-! ### Concrete scenario inputs

The two-node corridor used by the spec's end-to-end scenarios: nodes `A`,
`B` and one directed edge `AB` of length 1000 m with a configurable speed
limit. -/

/-- nodeA of the scenario network. -/
def nodeA : Node := { id := "A", loc := { x := 0, y := 0 }, type := "station" }

/-- nodeB of the scenario network. -/
def nodeB : Node := { id := "B", loc := { x := 1000, y := 0 }, type := "station" }

/-- scenarioEdge is the directed edge `A → B`, 1000 m long. -/
def scenarioEdge (sl : Option ℝ) : Edge :=
  { id := "AB", u := "A", v := "B", length := 1000, speedLimit := sl }

/-- scenarioGraph is the built two-node graph. -/
def scenarioGraph (sl : Option ℝ) : Graph :=
  { nodes := [nodeA, nodeB], edges := [scenarioEdge sl] }

/-- scenarioT1 is the Floyd-Warshall table state of the scenario graph
after initialisation (relaxation changes nothing on this graph). -/
noncomputable def scenarioT1 : FWTables :=
  { dist := update2 (fun i j => if i = j then ((0 : ℝ) : EReal) else ⊤) "A" "B"
      ((1000 : ℝ) : EReal),
    next := update2 (fun _ _ => none) "A" "B" (some "B") }

/-- scenarioVehicle: length 50 m, `a_acc` 0.5, `a_dcc` 0.7, `v_max` 20. -/
def scenarioVehicle : Vehicle :=
  { name := "T", length := 50, kinem := { AAcc := 0.5, ADcc := 0.7, VMaxVal := 20 } }

/-- c4Service is the claim C4 service: departure delay 5 s. -/
def c4Service : Service :=
  { serviceID := "S1", initialPosition := "A", route := [{ nodeID := "B", tDwell := 30 }],
    vehicle := scenarioVehicle, departureDelay := 5 }

/-- c4Input is the claim C4 scenario: one service, delay 5 s, timestep 1 s,
run time 6 s. -/
def c4Input : SimulationInput :=
  { meta := { simulationID := "c4", runTime := 6, timeStep := 1 },
    graphData := { nodes := [nodeA, nodeB], edges := [scenarioEdge none] },
    serviceList := [c4Service] }

/-- c4s0 is the C4 service's initial simulation state. -/
def c4s0 : SimService :=
  { service := c4Service, currentPosition := { edge := "AB", distanceAlongEdge := 0 },
    state := .stationary, velocity := 0, remainingDwell := 0, nextStop := "B",
    nextStopIndex := 0 }

/-- c4s5 is the C4 service after the step at `curTime = 5`: the state has
switched to accelerating but nothing else moved. -/
def c4s5 : SimService := { c4s0 with state := .accelerating }

/-- c4s6 is the C4 service after the step at `curTime = 6`: first actual
movement (0.25 m, velocity 0.5 m/s). -/
def c4s6 : SimService :=
  { c4s5 with
    currentPosition := { edge := "AB", distanceAlongEdge := 0.25 }
    velocity := 0.5 }

/-- c4T is the C4 engine state with a given clock and service state. -/
noncomputable def c4T (c : ℝ) (svc : SimService) : TMS :=
  { meta := { simulationID := "c4", runTime := 6, timeStep := 1 },
    graph := scenarioGraph none, services := [svc], curTime := c }

/-- c4Log is the full C4 log: stationary at t = 0..4, accelerating with no
movement at t = 5, first movement at t = 6. -/
def c4Log : SimulationLog :=
  { meta := { simulationID := "c4", runTime := 6, timeStep := 1 },
    output :=
      [ { timestamp := 0, serviceLogs := [c4s0.getLog] },
        { timestamp := 1, serviceLogs := [c4s0.getLog] },
        { timestamp := 2, serviceLogs := [c4s0.getLog] },
        { timestamp := 3, serviceLogs := [c4s0.getLog] },
        { timestamp := 4, serviceLogs := [c4s0.getLog] },
        { timestamp := 5, serviceLogs := [c4s5.getLog] },
        { timestamp := 6, serviceLogs := [c4s6.getLog] } ] }

/-- claimC4Stated: claim C4's count of stationary rows as written — in the
C4 scenario every logged row with timestamp `≤ 5` shows state
`stationary`. -/
def claimC4Stated : Prop :=
  ∀ (log : SimulationLog), (c4T 0 c4s0).run = .ok log →
    ∀ row ∈ log.output, row.timestamp ≤ 5 →
      ∀ sl ∈ row.serviceLogs, sl.state = ServiceState.stationary

/-- c1Service1 starts at node `A` with a 50 m vehicle and a long departure
delay. -/
def c1Service1 : Service :=
  { serviceID := "S1", initialPosition := "A", route := [{ nodeID := "B", tDwell := 30 }],
    vehicle := scenarioVehicle, departureDelay := 10 }

/-- c1Service2 is identical to `c1Service1` except for its id: both
services start at the same node `A`. -/
def c1Service2 : Service := { c1Service1 with serviceID := "S2" }

/-- c1Input places two services at the same node; `NewTMS` accepts it. -/
def c1Input : SimulationInput :=
  { meta := { simulationID := "c1", runTime := 0, timeStep := 1 },
    graphData := { nodes := [nodeA, nodeB], edges := [scenarioEdge none] },
    serviceList := [c1Service1, c1Service2] }

/-- c1Sim is the initial simulation state of a C1 service. -/
def c1Sim (svc : Service) : SimService :=
  { service := svc, currentPosition := { edge := "AB", distanceAlongEdge := 0 },
    state := .stationary, velocity := 0, remainingDwell := 0, nextStop := "B",
    nextStopIndex := 0 }

/-- c1Tms is the engine state `NewTMS` builds from `c1Input`: both services
co-located at distance 0 on edge `AB`. -/
noncomputable def c1Tms : TMS :=
  { meta := { simulationID := "c1", runTime := 0, timeStep := 1 },
    graph := scenarioGraph none, services := [c1Sim c1Service1, c1Sim c1Service2],
    curTime := 0 }

/-- c1Log is the single log row of the C1 run: both services still
co-located. -/
def c1Log : SimulationLog :=
  { meta := { simulationID := "c1", runTime := 0, timeStep := 1 },
    output := [ { timestamp := 0,
                  serviceLogs := [(c1Sim c1Service1).getLog, (c1Sim c1Service2).getLog] } ] }

/-- c2Vehicle: braking rate 1, otherwise like the scenario vehicle.  All
kinematics parameters are nonnegative. -/
def c2Vehicle : Vehicle :=
  { name := "T", length := 50, kinem := { AAcc := 0.5, ADcc := 1, VMaxVal := 20 } }

/-- c2Service departs immediately. -/
def c2Service : Service :=
  { serviceID := "S1", initialPosition := "A", route := [{ nodeID := "B", tDwell := 30 }],
    vehicle := c2Vehicle, departureDelay := 0 }

/-- c2Input drives the C2 service onto an edge whose speed limit is `-5`;
`NewTMS` accepts it without validating the limit. -/
def c2Input : SimulationInput :=
  { meta := { simulationID := "c2", runTime := 1, timeStep := 1 },
    graphData := { nodes := [nodeA, nodeB], edges := [scenarioEdge (some (-5))] },
    serviceList := [c2Service] }

/-- c2s0 is the C2 service's initial state. -/
def c2s0 : SimService :=
  { service := c2Service, currentPosition := { edge := "AB", distanceAlongEdge := 0 },
    state := .stationary, velocity := 0, remainingDwell := 0, nextStop := "B",
    nextStopIndex := 0 }

/-- c2s1: after the step at `curTime = 0` the service is accelerating. -/
def c2s1 : SimService := { c2s0 with state := .accelerating }

/-- c2s2: after the step at `curTime = 1` the service "decelerates toward"
the negative speed limit and its velocity is `-1`. -/
def c2s2 : SimService := { c2s1 with velocity := -1, state := .decelerating }

/-- c2T is the C2 engine state with a given clock and service state. -/
noncomputable def c2T (c : ℝ) (svc : SimService) : TMS :=
  { meta := { simulationID := "c2", runTime := 1, timeStep := 1 },
    graph := scenarioGraph (some (-5)), services := [svc], curTime := c }

/-- c2Log is the C2 run's log; the row at t = 1 carries velocity `-1`. -/
def c2Log : SimulationLog :=
  { meta := { simulationID := "c2", runTime := 1, timeStep := 1 },
    output := [ { timestamp := 0, serviceLogs := [c2s1.getLog] },
                { timestamp := 1, serviceLogs := [c2s2.getLog] } ] }

/-- c3Input has a negative run time and no services. -/
def c3Input : SimulationInput :=
  { meta := { simulationID := "c3", runTime := -2, timeStep := 1 },
    graphData := { nodes := [], edges := [] }, serviceList := [] }

/-- c3Tms is the engine state built from `c3Input`. -/
noncomputable def c3Tms : TMS :=
  { meta := { simulationID := "c3", runTime := -2, timeStep := 1 },
    graph := { nodes := [], edges := [] }, services := [], curTime := 0 }

/-- c3wLog is the C3 witness log: three rows at t = 0, 1, 2. -/
def c3wLog : SimulationLog :=
  { meta := { simulationID := "c3w", runTime := 2, timeStep := 1 },
    output := [ { timestamp := 0, serviceLogs := [] },
                { timestamp := 1, serviceLogs := [] },
                { timestamp := 2, serviceLogs := [] } ] }

/-- c2wInput is the C2 witness input: empty graph, no services. -/
def c2wInput : SimulationInput :=
  { meta := { simulationID := "c2w", runTime := 0, timeStep := 1 },
    graphData := { nodes := [], edges := [] }, serviceList := [] }

/-- c2wTms is the engine state built from `c2wInput`. -/
noncomputable def c2wTms : TMS :=
  { meta := { simulationID := "c2w", runTime := 0, timeStep := 1 },
    graph := { nodes := [], edges := [] }, services := [], curTime := 0 }

/-- c5Service has a two-stop route, for observing the next-stop pointer. -/
def c5Service : Service :=
  { serviceID := "S1", initialPosition := "X",
    route := [{ nodeID := "X", tDwell := 5 }, { nodeID := "Y", tDwell := 5 }],
    vehicle := scenarioVehicle, departureDelay := 0 }

/-- c5svc is a dwelling service whose remaining dwell expires on the next
1-second step; its next-stop pointer is at index 0. -/
def c5svc : SimService :=
  { service := c5Service, currentPosition := { edge := "XY", distanceAlongEdge := 0 },
    state := .dwelling, velocity := 0, remainingDwell := 1, nextStop := "X",
    nextStopIndex := 0 }

/-- c9LeaderService is the static leader service of the C9 witness. -/
def c9LeaderService : Service :=
  { serviceID := "L", initialPosition := "A", route := [{ nodeID := "B", tDwell := 30 }],
    vehicle := scenarioVehicle, departureDelay := 0 }

/-- c9FollowerService is the static follower service of the C9 witness. -/
def c9FollowerService : Service :=
  { serviceID := "F", initialPosition := "A", route := [{ nodeID := "B", tDwell := 30 }],
    vehicle := scenarioVehicle, departureDelay := 0 }

/-- c9Leader sits at 100 m along edge `AB`, stopped. -/
def c9Leader : SimService :=
  { service := c9LeaderService, currentPosition := { edge := "AB", distanceAlongEdge := 100 },
    state := .cruising, velocity := 0, remainingDwell := 0, nextStop := "B",
    nextStopIndex := 0 }

/-- c9Follower is 40 m behind the leader's front (inside its 50 m length
envelope), accelerating with velocity 0. -/
def c9Follower : SimService :=
  { service := c9FollowerService, currentPosition := { edge := "AB", distanceAlongEdge := 60 },
    state := .accelerating, velocity := 0, remainingDwell := 0, nextStop := "B",
    nextStopIndex := 0 }

/-- ParamsOK: a vehicle's kinematics parameters are all nonnegative, as
claim C2 assumes. -/
def ParamsOK (v : Vehicle) : Prop :=
  0 ≤ v.kinem.VMaxVal ∧ 0 ≤ v.kinem.AAcc ∧ 0 ≤ v.kinem.ADcc

/-- LimitsOK: every declared edge speed limit of a graph is nonnegative. -/
def LimitsOK (g : Graph) : Prop :=
  ∀ e ∈ g.edges, ∀ l : ℝ, e.speedLimit = some l → 0 ≤ l

/-- VelOK: a service's velocity lies in `[0, VMax]`. -/
def VelOK (s : SimService) : Prop :=
  0 ≤ s.velocity ∧ s.velocity ≤ s.vehicle.kinem.VMaxVal

/-- c3Log is the (empty) log of the C3 counterexample run. -/
def c3Log : SimulationLog :=
  { meta := { simulationID := "c3", runTime := -2, timeStep := 1 }, output := [] }

/-- c3wT is the C3 witness engine state at a given clock. -/
noncomputable def c3wT (c : ℝ) : TMS :=
  { meta := { simulationID := "c3w", runTime := 2, timeStep := 1 },
    graph := { nodes := [], edges := [] }, services := [], curTime := c }

/-- c2wLog is the single-row log of the C2 witness run. -/
def c2wLog : SimulationLog :=
  { meta := { simulationID := "c2w", runTime := 0, timeStep := 1 },
    output := [ { timestamp := 0, serviceLogs := [] } ] }

/-! ### Generic helper lemmas -/

/-- foldl_id: a fold whose step fixes the accumulator returns it. -/
theorem foldl_id {α β : Type} (f : α → β → α) (l : List β) (a : α)
    (h : ∀ b ∈ l, f a b = a) : l.foldl f a = a := by
  induction l with
  | nil => rfl
  | cons x xs ih =>
    simp only [List.foldl_cons, h x (by simp)]
    exact ih (fun b hb => h b (by simp [hb]))

/-- motionPass_single: the motion pass over a one-service population. -/
theorem motionPass_single (g : Graph) (mins : List (String × EReal)) (c dt : ℝ)
    (svc svc' : SimService) (h : stepService g mins [svc] c dt svc = .ok svc') :
    motionPass g mins c dt [] [svc] = .ok [svc'] := by
  simp [motionPass, h, Bind.bind, Except.bind]

/-- stepF_single: one step of an engine holding a single service. -/
theorem stepF_single (t : TMS) (svc svc' : SimService) (hsvc : t.services = [svc])
    (h : stepService t.graph (minMAsOf [svc]) [svc] t.curTime t.meta.timeStep svc = .ok svc') :
    t.stepF = .ok ({ timestamp := t.curTime, serviceLogs := [svc'.getLog] },
                   { t with services := [svc'] }) := by
  simp [TMS.stepF, hsvc, motionPass_single _ _ _ _ _ _ h, Bind.bind, Except.bind]

/-- runAux_step: unfolding one iteration of the `Run` loop. -/
theorem runAux_step (fuel : ℕ) (t t' : TMS) (row : SimulationLogRow)
    (rows : List SimulationLogRow) (h1 : t.curTime ≤ t.meta.runTime)
    (h2 : t.stepF = .ok (row, t'))
    (h3 : runAux fuel { t' with curTime := t'.curTime + t.meta.timeStep } = .ok rows) :
    runAux (fuel + 1) t = .ok (row :: rows) := by
  simp [runAux, h1, h2, h3, Bind.bind, Except.bind]

/-- runAux_done: the `Run` loop exits once `curTime` passes `runTime`. -/
theorem runAux_done (fuel : ℕ) (t : TMS) (h : ¬ t.curTime ≤ t.meta.runTime) :
    runAux (fuel + 1) t = .ok [] := by
  simp [runAux, h]

/-- maxFloat64_big: the MA sentinel is at least 1. -/
theorem maxFloat64_big : (1 : ℝ) ≤ maxFloat64 := by
  unfold maxFloat64
  have h2 : (2 : ℝ) ^ (1024 : ℕ) = (2 : ℝ) ^ (971 : ℕ) * (2 : ℝ) ^ (53 : ℕ) := by
    rw [← pow_add]
  have h3 : (1 : ℝ) ≤ (2 : ℝ) ^ (971 : ℕ) := one_le_pow₀ (by norm_num)
  have h4 : (2 : ℝ) ≤ (2 : ℝ) ^ (53 : ℕ) := by
    calc (2 : ℝ) = 2 ^ (1 : ℕ) := (pow_one 2).symm
    _ ≤ 2 ^ (53 : ℕ) := pow_le_pow_right₀ (by norm_num) (by norm_num)
  nlinarith

/-! ### Evaluation of the scenario graph -/

/-- scenario_dist_AA: initial FW distance A→A. -/
theorem scenario_dist_AA : scenarioT1.dist "A" "A" = ((0 : ℝ) : EReal) := by
  simp [scenarioT1, update2]

/-- scenario_dist_AB: initial FW distance A→B. -/
theorem scenario_dist_AB : scenarioT1.dist "A" "B" = ((1000 : ℝ) : EReal) := by
  simp [scenarioT1, update2]

/-- scenario_dist_BA: initial FW distance B→A is infinite. -/
theorem scenario_dist_BA : scenarioT1.dist "B" "A" = ⊤ := by
  simp [scenarioT1, update2]

/-- scenario_dist_BB: initial FW distance B→B. -/
theorem scenario_dist_BB : scenarioT1.dist "B" "B" = ((0 : ℝ) : EReal) := by
  simp [scenarioT1, update2]

/-- scenario_fwInit: the FW initialisation on the scenario graph. -/
theorem scenario_fwInit (sl : Option ℝ) : fwInit (scenarioGraph sl) = scenarioT1 := by
  simp [fwInit, scenarioGraph, scenarioEdge, scenarioT1]

/-- scenario_fwRelax: no relaxation step improves the scenario tables. -/
theorem scenario_fwRelax : fwRelax ["A", "B"] scenarioT1 = scenarioT1 := by
  unfold fwRelax
  apply foldl_id
  intro k hk
  apply foldl_id
  intro i hi
  apply foldl_id
  intro j hj
  simp only [List.mem_cons, List.mem_singleton, List.not_mem_nil, or_false] at hk hi hj
  rcases hk with rfl | rfl <;> rcases hi with rfl | rfl <;> rcases hj with rfl | rfl <;>
    · rw [if_neg]
      norm_num [scenario_dist_AA, scenario_dist_AB, scenario_dist_BA, scenario_dist_BB,
        EReal.top_add_coe, EReal.coe_add_top, EReal.top_add_top, not_top_lt,
        ← EReal.coe_add, EReal.coe_lt_coe_iff]

/-- scenario_fwTables: the FW tables of the scenario graph. -/
theorem scenario_fwTables (sl : Option ℝ) : fwTables (scenarioGraph sl) = scenarioT1 := by
  unfold fwTables
  rw [scenario_fwInit]
  have hids : (scenarioGraph sl).nodes.map (fun n => n.id) = ["A", "B"] := by
    simp [scenarioGraph, nodeA, nodeB]
  rw [hids]
  exact scenario_fwRelax

/-- scenario_shortest_AB: the shortest path A→B on the scenario graph. -/
theorem scenario_shortest_AB (sl : Option ℝ) :
    getShortestPath (scenarioGraph sl) "A" "B" =
      .ok { id := "A->B", route := ["A", "B"], length := 1000 } := by
  unfold getShortestPath
  rw [scenario_fwTables]
  have hids : (scenarioGraph sl).nodes.map (fun n => n.id) = ["A", "B"] := by
    simp [scenarioGraph, nodeA, nodeB]
  rw [hids]
  simp [scenarioT1, update2, pathKey, reconstructPath, reconstructPathGo,
    EReal.toReal_coe]

/-- scenario_newGraph: `NewGraph` accepts the scenario graph data. -/
theorem scenario_newGraph (sl : Option ℝ) :
    newGraph { nodes := [nodeA, nodeB], edges := [scenarioEdge sl] } =
      .ok (scenarioGraph sl) := by
  simp [newGraph, List.foldlM, addNode, addEdge, nodeA, nodeB, scenarioEdge, scenarioGraph,
    Bind.bind, Except.bind, pure, Except.pure]

/-- scenario_pathStart: the initial position resolved for a service
starting at `A` bound for `B`. -/
theorem scenario_pathStart (sl : Option ℝ) :
    getPathStartPosition (scenarioGraph sl) "A" "B" =
      .ok { edge := "AB", distanceAlongEdge := 0 } := by
  unfold getPathStartPosition
  rw [scenario_shortest_AB]
  simp [Bind.bind, Except.bind, getEdge, scenarioGraph, scenarioEdge, nodeA, nodeB,
    pure, Except.pure]

/-! ### Evaluation of the C4 scenario -/

/-- c4_newTMS: `NewTMS` accepts the C4 input and produces `c4T 0 c4s0`. -/
theorem c4_newTMS : newTMS c4Input = .ok (c4T 0 c4s0) := by
  unfold newTMS c4Input
  simp only []
  rw [scenario_newGraph]
  simp [Bind.bind, Except.bind, List.foldlM, newTMSStep, getFirstStop, c4Service,
    scenario_pathStart, newSimService, c4T, c4s0, pure, Except.pure]

/-- c4_step_stationary: before the delay elapses the service is held. -/
theorem c4_step_stationary (mins : List (String × EReal)) (c : ℝ) (hc : c < 5) :
    stepService (scenarioGraph none) mins [c4s0] c 1 c4s0 = .ok c4s0 := by
  simp only [stepService, c4s0, c4Service]
  norm_num [SimService.departureDelay, hc]

/-- c4_step_transition: at `curTime = 5` the service switches to
accelerating without moving. -/
theorem c4_step_transition (mins : List (String × EReal)) :
    stepService (scenarioGraph none) mins [c4s0] 5 1 c4s0 = .ok c4s5 := by
  simp only [stepService, c4s0, c4Service, c4s5]
  norm_num [SimService.departureDelay]

/-- c4_dist_to_stop: the C4 service is 1000 m from its stop. -/
theorem c4_dist_to_stop : distanceToNextStop (scenarioGraph none) c4s5 = .ok 1000 := by
  simp [distanceToNextStop, getEdgeByID, scenarioGraph, scenarioEdge, nodeA, nodeB,
    c4s5, c4s0, Bind.bind, Except.bind, pure, Except.pure]

/-- c4_sl_info: speed limit context of the C4 service. -/
theorem c4_sl_info : getSpeedLimitInfo (scenarioGraph none) c4s5 =
    .ok { currentMax := 20, distToChange := 1000, nextMax := 0 } := by
  simp [getSpeedLimitInfo, getEdgeByID, scenarioGraph, scenarioEdge, nodeA, nodeB,
    c4s5, c4s0, c4Service, scenarioVehicle, SimService.vehicle, ConstantAcceleration.vmax,
    Bind.bind, Except.bind, pure, Except.pure]

/-- c4_propose: the C4 service's first kinematic proposal. -/
theorem c4_propose :
    proposeMovement c4s5 1 1000 { currentMax := 20, distToChange := 1000, nextMax := 0 } =
      (0.25, 0.5, .accelerating) := by
  simp only [proposeMovement, c4s5, c4s0, c4Service, scenarioVehicle, SimService.vehicle,
    ConstantAcceleration.brakingDistance, ConstantAcceleration.accelerateStep]
  norm_num [EReal.coe_le_coe_iff]

/-- c4_advance: advancing 0.25 m along edge `AB`. -/
theorem c4_advance : advancePosition (scenarioGraph none) 3 c4s5 0.25 =
    .ok (false, { c4s5 with currentPosition := { edge := "AB", distanceAlongEdge := 0.25 } }) := by
  rw [advancePosition]
  rw [if_neg (by norm_num)]
  simp only [getEdgeByID, scenarioGraph, scenarioEdge, nodeA, nodeB, c4s5, c4s0]
  norm_num [Bind.bind, Except.bind]

/-- c4_step_moving: the step at `curTime = 6` produces the first actual
movement. -/
theorem c4_step_moving (mins : List (String × EReal)) :
    stepService (scenarioGraph none) mins [c4s5] 6 1 c4s5 = .ok c4s6 := by
  have hms : stepMovingService (scenarioGraph none) mins [c4s5] 1 c4s5 = .ok c4s6 := by
    unfold stepMovingService
    rw [c4_dist_to_stop]
    simp only [Bind.bind, Except.bind]
    rw [c4_sl_info]
    simp only [c4_propose]
    have hma : computeMaxAllowedDistance c4s5 [c4s5] mins = maxFloat64 := by
      simp [computeMaxAllowedDistance, maFold, List.foldl, SimService.serviceID, c4s5, c4s0, c4Service]
    rw [hma]
    have hmin : min (0.25 : ℝ) maxFloat64 = 0.25 :=
      min_eq_left (le_trans (by norm_num) maxFloat64_big)
    rw [hmin]
    rw [if_neg (by norm_num)]
    have hg : (scenarioGraph none).nodes.length + 1 = 3 := by
      simp [scenarioGraph]
    rw [hg, c4_advance]
    simp [c4s6, c4s5, c4s0]
  have hst : c4s5.state = ServiceState.accelerating := rfl
  simp [stepService, hst, hms]

/-- c4_runAux_step: one loop iteration of the C4 run. -/
theorem c4_runAux_step (fuel : ℕ) (c : ℝ) (svc svc' : SimService)
    (rows : List SimulationLogRow) (h1 : c ≤ 6)
    (h2 : stepService (scenarioGraph none) (minMAsOf [svc]) [svc] c 1 svc = .ok svc')
    (h3 : runAux fuel (c4T (c + 1) svc') = .ok rows) :
    runAux (fuel + 1) (c4T c svc) =
      .ok ({ timestamp := c, serviceLogs := [svc'.getLog] } :: rows) := by
  apply runAux_step fuel (c4T c svc) (c4T c svc') _ rows h1
  · exact stepF_single (c4T c svc) svc svc' rfl h2
  · exact h3

/-- c4_runAux: the full seven-iteration C4 loop. -/
theorem c4_runAux : runAux 8 (c4T 0 c4s0) = .ok c4Log.output := by
  have e1 : c4T ((0:ℝ) + 1) c4s0 = c4T 1 c4s0 := by norm_num
  have e2 : c4T ((1:ℝ) + 1) c4s0 = c4T 2 c4s0 := by norm_num
  have e3 : c4T ((2:ℝ) + 1) c4s0 = c4T 3 c4s0 := by norm_num
  have e4 : c4T ((3:ℝ) + 1) c4s0 = c4T 4 c4s0 := by norm_num
  have e5 : c4T ((4:ℝ) + 1) c4s0 = c4T 5 c4s0 := by norm_num
  have e6 : c4T ((5:ℝ) + 1) c4s5 = c4T 6 c4s5 := by norm_num
  have e7 : c4T ((6:ℝ) + 1) c4s6 = c4T 7 c4s6 := by norm_num
  have h7 : runAux 1 (c4T 7 c4s6) = .ok [] := runAux_done 0 _ (by norm_num [c4T])
  have h6 : runAux 2 (c4T 6 c4s5) =
      .ok [{ timestamp := 6, serviceLogs := [c4s6.getLog] }] := by
    apply c4_runAux_step 1 6 c4s5 c4s6 _ (by norm_num) (c4_step_moving _)
    rw [e7]; exact h7
  have h5 : runAux 3 (c4T 5 c4s0) =
      .ok [{ timestamp := 5, serviceLogs := [c4s5.getLog] },
           { timestamp := 6, serviceLogs := [c4s6.getLog] }] := by
    apply c4_runAux_step 2 5 c4s0 c4s5 _ (by norm_num) (c4_step_transition _)
    rw [e6]; exact h6
  have h4 : runAux 4 (c4T 4 c4s0) = .ok
      [{ timestamp := 4, serviceLogs := [c4s0.getLog] },
       { timestamp := 5, serviceLogs := [c4s5.getLog] },
       { timestamp := 6, serviceLogs := [c4s6.getLog] }] := by
    apply c4_runAux_step 3 4 c4s0 c4s0 _ (by norm_num) (c4_step_stationary _ 4 (by norm_num))
    rw [e5]; exact h5
  have h3 : runAux 5 (c4T 3 c4s0) = .ok
      [{ timestamp := 3, serviceLogs := [c4s0.getLog] },
       { timestamp := 4, serviceLogs := [c4s0.getLog] },
       { timestamp := 5, serviceLogs := [c4s5.getLog] },
       { timestamp := 6, serviceLogs := [c4s6.getLog] }] := by
    apply c4_runAux_step 4 3 c4s0 c4s0 _ (by norm_num) (c4_step_stationary _ 3 (by norm_num))
    rw [e4]; exact h4
  have h2 : runAux 6 (c4T 2 c4s0) = .ok
      [{ timestamp := 2, serviceLogs := [c4s0.getLog] },
       { timestamp := 3, serviceLogs := [c4s0.getLog] },
       { timestamp := 4, serviceLogs := [c4s0.getLog] },
       { timestamp := 5, serviceLogs := [c4s5.getLog] },
       { timestamp := 6, serviceLogs := [c4s6.getLog] }] := by
    apply c4_runAux_step 5 2 c4s0 c4s0 _ (by norm_num) (c4_step_stationary _ 2 (by norm_num))
    rw [e3]; exact h3
  have h1 : runAux 7 (c4T 1 c4s0) = .ok
      [{ timestamp := 1, serviceLogs := [c4s0.getLog] },
       { timestamp := 2, serviceLogs := [c4s0.getLog] },
       { timestamp := 3, serviceLogs := [c4s0.getLog] },
       { timestamp := 4, serviceLogs := [c4s0.getLog] },
       { timestamp := 5, serviceLogs := [c4s5.getLog] },
       { timestamp := 6, serviceLogs := [c4s6.getLog] }] := by
    apply c4_runAux_step 6 1 c4s0 c4s0 _ (by norm_num) (c4_step_stationary _ 1 (by norm_num))
    rw [e2]; exact h2
  apply c4_runAux_step 7 0 c4s0 c4s0 _ (by norm_num) (c4_step_stationary _ 0 (by norm_num))
  rw [e1]; exact h1

/-- c4_run: the full C4 run result. -/
theorem c4_run : (c4T 0 c4s0).run = .ok c4Log := by
  unfold TMS.run TMS.runWith
  have hf : (⌊(c4T 0 c4s0).meta.runTime / (c4T 0 c4s0).meta.timeStep⌋).toNat + 2 = 8 := by
    have : (c4T 0 c4s0).meta.runTime / (c4T 0 c4s0).meta.timeStep = (6 : ℝ) := by
      norm_num [c4T]
    rw [this]
    norm_num
    rfl
  rw [hf, c4_runAux]
  rfl

/-! ### Claim C4 -/

/-- C4_counterexample: claim C4 is false as stated — in the C4 scenario the
row logged at timestamp 5 shows state `accelerating`, not `stationary`,
because the log snapshot is taken after the stationary→accelerating
transition of that same step. -/
theorem C4_counterexample : ¬ claimC4Stated := by
  intro h
  have h5 := h c4Log c4_run { timestamp := 5, serviceLogs := [c4s5.getLog] }
    (by simp [c4Log]) (by norm_num) c4s5.getLog (by simp)
  have : c4s5.getLog.state = ServiceState.accelerating := by
    simp [SimService.getLog, c4s5, c4s0]
  rw [this] at h5
  exact ServiceState.noConfusion h5

/-- C4_departure_delay_scenario: the amended claim C4 — with departure
delay 5 s and timestep 1 s, the service is logged `stationary` at
t = 0..4; at t = 5 (the step where `curTime == 5`) it is already logged
`accelerating`, still with velocity 0 and an unchanged position; distance
first accumulates at t = 6. -/
theorem C4_departure_delay_scenario :
    newTMS c4Input = .ok (c4T 0 c4s0) ∧
    (c4T 0 c4s0).run = .ok c4Log ∧
    (∀ row ∈ c4Log.output, row.timestamp < 5 →
      ∀ sl ∈ row.serviceLogs, sl.state = ServiceState.stationary) ∧
    c4s5.getLog.state = ServiceState.accelerating ∧
    c4s5.getLog.velocity = 0 ∧
    c4s5.getLog.currentPosition.distanceAlongEdge =
      c4s0.getLog.currentPosition.distanceAlongEdge ∧
    c4s6.getLog.state = ServiceState.accelerating ∧
    0 < c4s6.getLog.currentPosition.distanceAlongEdge ∧
    0 < c4s6.getLog.velocity := by
  refine ⟨c4_newTMS, c4_run, ?_, by simp [SimService.getLog, c4s5, c4s0],
    by simp [SimService.getLog, c4s5, c4s0],
    by simp [SimService.getLog, c4s5, c4s0],
    by simp [SimService.getLog, c4s6, c4s5, c4s0],
    by norm_num [SimService.getLog, c4s6, c4s5, c4s0],
    by norm_num [SimService.getLog, c4s6, c4s5, c4s0]⟩
  intro row hrow ht sl hsl
  simp only [c4Log, List.mem_cons, List.not_mem_nil, or_false] at hrow
  rcases hrow with rfl | rfl | rfl | rfl | rfl | rfl | rfl <;>
    (try (simp only [List.mem_singleton] at hsl; subst hsl)) <;>
    (try norm_num at ht) <;>
    (try simp [SimService.getLog, c4s0])

/-! ### Claim C5 -/

/-- C5_counterexample: claim C5 is false as stated — ending a dwell does
not advance the next-stop pointer (the pointer was advanced by `startDwell`
when the dwell began).  On the concrete dwelling service `c5svc` the
pointer stays at 0 instead of moving to `(0+1) % 2 = 1`. -/
theorem C5_counterexample : ¬ claimC5Stated := by
  intro h
  have := h c5svc 1 rfl (by norm_num [c5svc])
  rcases this with ⟨_, _, hidx⟩
  have hval : (c5svc.advanceDwell 1).nextStopIndex = 0 := by
    simp [SimService.advanceDwell, c5svc, SimService.endDwell]
  rw [hval] at hidx
  have hroute : (c5svc.nextStopIndex + 1) % c5svc.route.length = 1 := by
    simp [c5svc, SimService.route, c5Service]
  rw [hroute] at hidx
  exact absurd hidx (by norm_num)

/-- C5_advance_dwell: the amended claim C5 — each step a dwelling service's
`AdvanceDwell(dt)` decrements the remaining dwell by `dt` (clamped to 0 on
expiry); when it reaches `≤ 0` the service re-enters `accelerating` with
velocity 0; the next-stop pointer and next stop are not changed at dwell
end — they were already advanced cyclically by `startDwell` on arrival. -/
theorem C5_advance_dwell (svc : SimService) (dt : ℝ) (h : svc.state = .dwelling) :
    ((svc.advanceDwell dt).nextStopIndex = svc.nextStopIndex ∧
     (svc.advanceDwell dt).nextStop = svc.nextStop) ∧
    (svc.remainingDwell - dt ≤ 0 →
      (svc.advanceDwell dt).state = .accelerating ∧ (svc.advanceDwell dt).velocity = 0 ∧
      (svc.advanceDwell dt).remainingDwell = 0) ∧
    (¬ svc.remainingDwell - dt ≤ 0 →
      (svc.advanceDwell dt).state = .dwelling ∧
      (svc.advanceDwell dt).remainingDwell = svc.remainingDwell - dt ∧
      (svc.advanceDwell dt).velocity = svc.velocity) := by
  by_cases h2 : svc.remainingDwell - dt ≤ 0 <;>
    simp [SimService.advanceDwell, h, h2, SimService.endDwell]

/-- C5_advance_dwell_witness: the amended claim C5 instantiated on the
concrete dwelling service `c5svc` with `dt = 1`. -/
theorem C5_advance_dwell_witness :
    c5svc.state = .dwelling ∧
    (((c5svc.advanceDwell 1).nextStopIndex = c5svc.nextStopIndex ∧
      (c5svc.advanceDwell 1).nextStop = c5svc.nextStop) ∧
     (c5svc.remainingDwell - 1 ≤ 0 →
       (c5svc.advanceDwell 1).state = .accelerating ∧ (c5svc.advanceDwell 1).velocity = 0 ∧
       (c5svc.advanceDwell 1).remainingDwell = 0) ∧
     (¬ c5svc.remainingDwell - 1 ≤ 0 →
       (c5svc.advanceDwell 1).state = .dwelling ∧
       (c5svc.advanceDwell 1).remainingDwell = c5svc.remainingDwell - 1 ∧
       (c5svc.advanceDwell 1).velocity = c5svc.velocity)) :=
  ⟨rfl, C5_advance_dwell c5svc 1 rfl⟩

/-! ### Claim C6 -/

/-- C6_counterexample: claim C6 is false as stated — an instance with
`a_dcc = 0` returns `math.Inf(1)`, not 0, on `BrakingDistanceTo(0, 0)`,
because the `ADcc ≤ 0` guard runs before the `v ≤ targetV` check. -/
theorem C6_counterexample : ¬ claimC6Stated := by
  intro h
  have h0 := h { AAcc := 1, ADcc := 0, VMaxVal := 1 } 0 0 le_rfl
  have ht : ConstantAcceleration.brakingDistanceTo
      { AAcc := 1, ADcc := 0, VMaxVal := 1 } 0 0 = (⊤ : EReal) := by
    simp [ConstantAcceleration.brakingDistanceTo]
  rw [ht] at h0
  exact EReal.top_ne_coe 0 h0

/-- C6_braking_distance_to_zero: the amended claim C6 — for instances with
`a_dcc > 0`, `BrakingDistanceTo(v, vT)` returns 0 whenever `v ≤ vT` (in
particular at `v = vT`); instances with `a_dcc ≤ 0` instead return
`+Inf` regardless of the velocities. -/
theorem C6_braking_distance_to_zero (c : ConstantAcceleration) (v vT : ℝ)
    (ha : 0 < c.ADcc) (h : v ≤ vT) : c.brakingDistanceTo v vT = ((0 : ℝ) : EReal) := by
  unfold ConstantAcceleration.brakingDistanceTo
  rw [if_neg (not_le.mpr ha), if_pos h]

/-- C6_braking_distance_to_zero_witness: the amended claim C6 at the
concrete instance `a_dcc = 1`, `v = vT = 0`. -/
theorem C6_braking_distance_to_zero_witness :
    (0 : ℝ) < (1 : ℝ) ∧
    ConstantAcceleration.brakingDistanceTo { AAcc := 1, ADcc := 1, VMaxVal := 1 } 0 0 =
      ((0 : ℝ) : EReal) :=
  ⟨by norm_num,
   C6_braking_distance_to_zero { AAcc := 1, ADcc := 1, VMaxVal := 1 } 0 0 (by norm_num) le_rfl⟩

/-! ### Claim C7 -/

/-- C7_accelerate_step_formula: claim C7 confirmed — the source
`AccelerateStep` agrees with the claim's case formulas (cruise when
`a_acc ≤ 0` or `v ≥ vT`; accelerate-then-cruise when `t* ≤ dt`; accelerate
for the whole step otherwise) at every input. -/
theorem C7_accelerate_step_formula (c : ConstantAcceleration) (v vT dt : ℝ) :
    c.accelerateStep v vT dt = accelerateStepClaim c v vT dt := by
  unfold ConstantAcceleration.accelerateStep accelerateStepClaim
  simp only []
  split_ifs <;> exact Prod.ext (by ring) (by ring)

/-! ### Claim C10 -/

/-- C10_shortest_path_self: claim C10 confirmed — `GetShortestPath(x, x)`
succeeds with route `[x]` and length 0 on every graph, including graphs
that do not contain `x` as a node: the `start == end` short-circuit runs
before any node-existence check, so the "no path" error is impossible when
start equals end. -/
theorem C10_shortest_path_self (g : Graph) (x : NodeID) :
    getShortestPath g x x = .ok { id := pathKey x x, route := [x], length := 0 } := by
  simp [getShortestPath]

/-! ### Claim C3 -/

/-- stepF_preserves: one step never changes the clock or the meta record,
and stamps the row with the step-start clock. -/
theorem stepF_preserves (t t' : TMS) (row : SimulationLogRow)
    (h : t.stepF = .ok (row, t')) :
    t'.meta = t.meta ∧ t'.curTime = t.curTime ∧ row.timestamp = t.curTime ∧
    t'.graph = t.graph := by
  unfold TMS.stepF at h
  simp only [Bind.bind, Except.bind] at h
  cases hmp : motionPass t.graph (minMAsOf t.services) t.curTime t.meta.timeStep []
      t.services with
  | error e => rw [hmp] at h; exact absurd h (by simp)
  | ok services' =>
    rw [hmp] at h
    simp only [Except.ok.injEq, Prod.mk.injEq] at h
    rcases h with ⟨hrow, ht'⟩
    rw [← ht', ← hrow]
    exact ⟨rfl, rfl, rfl, rfl⟩

/-- stepF_nil: a step over an empty service population. -/
theorem stepF_nil (t : TMS) (h : t.services = []) :
    t.stepF = .ok ({ timestamp := t.curTime, serviceLogs := [] },
                   { t with services := [] }) := by
  simp [TMS.stepF, h, minMAsOf, motionPass, Bind.bind, Except.bind]

/-- runAux_spec: the `Run` loop, started anywhere, produces
`⌊(runTime − curTime)/timeStep⌋ + 1` rows stamped `curTime + i·timeStep`
whenever `timeStep > 0` and it returns at all. -/
theorem runAux_spec (dlt T : ℝ) (hd : 0 < dlt) :
    ∀ (fuel : ℕ) (t : TMS) (rows : List SimulationLogRow),
      t.meta.timeStep = dlt → t.meta.runTime = T →
      runAux fuel t = .ok rows →
      ((t.curTime ≤ T → (rows.length : ℤ) = ⌊(T - t.curTime) / dlt⌋ + 1) ∧
       (¬ t.curTime ≤ T → rows = []) ∧
       ∀ (i : ℕ) (hi : i < rows.length),
         (rows.get ⟨i, hi⟩).timestamp = t.curTime + (i : ℝ) * dlt) := by
  intro fuel
  induction fuel with
  | zero => intro t rows _ _ hrun; exact absurd hrun (by simp [runAux])
  | succ fuel ih =>
    intro t rows hΔ hT hrun
    rw [runAux] at hrun
    by_cases hc : t.curTime ≤ t.meta.runTime
    · rw [if_pos hc] at hrun
      cases hstep : t.stepF with
      | error e =>
        rw [hstep] at hrun
        exact absurd hrun (by simp [Bind.bind, Except.bind])
      | ok r =>
        rw [hstep] at hrun
        obtain ⟨row, t'⟩ := r
        simp only [Bind.bind, Except.bind] at hrun
        cases hrec : runAux fuel { t' with curTime := t'.curTime + t.meta.timeStep } with
        | error e =>
          rw [hrec] at hrun
          exact absurd hrun (by simp)
        | ok rest =>
          rw [hrec] at hrun
          simp only [Except.ok.injEq] at hrun
          obtain ⟨hmeta, hcur, hrow, _⟩ := stepF_preserves t t' row hstep
          have ih' := ih { t' with curTime := t'.curTime + t.meta.timeStep } rest
            (by simp [hmeta, hΔ]) (by simp [hmeta, hT]) hrec
          rw [hT] at hc
          subst hrun
          have hcur2 : ({ t' with curTime := t'.curTime + t.meta.timeStep } : TMS).curTime =
              t.curTime + dlt := by
            simp [hcur, hΔ]
          rw [hcur2] at ih'
          obtain ⟨ih1, ih2, ih3⟩ := ih'
          refine ⟨fun _ => ?_, fun hcon => absurd hc hcon, ?_⟩
          · by_cases hc2 : t.curTime + dlt ≤ T
            · have hlen := ih1 hc2
              have hfloor : ⌊(T - (t.curTime + dlt)) / dlt⌋ =
                  ⌊(T - t.curTime) / dlt⌋ - 1 := by
                have hx : (T - (t.curTime + dlt)) / dlt = (T - t.curTime) / dlt - 1 := by
                  rw [show T - (t.curTime + dlt) = T - t.curTime - dlt by ring, sub_div,
                    div_self hd.ne']
                rw [hx]
                exact_mod_cast Int.floor_sub_int ((T - t.curTime) / dlt) 1
              rw [hfloor] at hlen
              simp only [List.length_cons]
              push_cast
              linarith [hlen]
            · have hrest : rest = [] := ih2 hc2
              subst hrest
              have hfloor : ⌊(T - t.curTime) / dlt⌋ = 0 := by
                rw [Int.floor_eq_zero_iff]
                constructor
                · exact div_nonneg (by linarith) hd.le
                · rw [div_lt_one hd]; linarith
              simp [hfloor]
          · intro i hi
            cases i with
            | zero => simpa [hrow] using by ring
            | succ j =>
              have hj : j < rest.length := by
                simpa [List.length_cons, Nat.succ_lt_succ_iff] using hi
              have := ih3 j hj
              simp only [List.get_cons_succ] at *
              rw [this]
              push_cast
              ring
    · rw [if_neg hc] at hrun
      simp only [Except.ok.injEq] at hrun
      subst hrun
      rw [hT] at hc
      exact ⟨fun hcon => absurd hcon hc, fun _ => rfl, fun i hi => by simp at hi⟩

/-- c3_newTMS: `NewTMS` accepts the negative-run-time input. -/
theorem c3_newTMS : newTMS c3Input = .ok c3Tms := by
  simp [newTMS, c3Input, newGraph, List.foldlM, newTMSStep, Bind.bind, Except.bind, pure,
    Except.pure, c3Tms]

/-- c3_run: with `runTime = -2` the loop body never runs and the log is
empty. -/
theorem c3_run : c3Tms.run = .ok c3Log := by
  unfold TMS.run TMS.runWith
  have hf : (⌊c3Tms.meta.runTime / c3Tms.meta.timeStep⌋).toNat + 2 = 2 := by
    have : c3Tms.meta.runTime / c3Tms.meta.timeStep = (-2 : ℝ) := by
      norm_num [c3Tms]
    rw [this]
    norm_num
  rw [hf, runAux_done 1 c3Tms (by norm_num [c3Tms])]
  rfl

/-- C3_counterexample: claim C3 is false as stated — on the accepted input
with `run_time = -2` and `time_step = 1` the log has 0 rows, while the
claimed count `⌊runTime/timeStep⌋ + 1` is `-1`. -/
theorem C3_counterexample : ¬ claimC3Stated := by
  intro h
  have := h c3Input c3Tms c3Log c3_newTMS (by norm_num [c3Input]) c3_run
  rcases this with ⟨hlen, _⟩
  have h1 : ((c3Log.output.length : ℤ)) = 0 := by simp [c3Log]
  have h2 : ⌊c3Input.meta.runTime / c3Input.meta.timeStep⌋ + 1 = (-1 : ℤ) := by
    have : c3Input.meta.runTime / c3Input.meta.timeStep = (-2 : ℝ) := by
      norm_num [c3Input]
    rw [this]
    norm_num
  rw [h1, h2] at hlen
  exact absurd hlen (by norm_num)

/-- C3_row_count_timestamps: the amended claim C3 — for `timeStep > 0` and
`runTime ≥ 0`, whenever the run returns a log it has exactly
`⌊runTime/timeStep⌋ + 1` rows and the i-th row is stamped `i·timeStep`.
(The claim as stated fails for negative run times, where the log is empty
but the formula is negative.) -/
theorem C3_row_count_timestamps (t : TMS) (fuel : ℕ) (log : SimulationLog)
    (hd : 0 < t.meta.timeStep) (hT : 0 ≤ t.meta.runTime) (h0 : t.curTime = 0)
    (hrun : t.runWith fuel = .ok log) :
    (log.output.length : ℤ) = ⌊t.meta.runTime / t.meta.timeStep⌋ + 1 ∧
    ∀ (i : ℕ) (hi : i < log.output.length),
      (log.output.get ⟨i, hi⟩).timestamp = (i : ℝ) * t.meta.timeStep := by
  unfold TMS.runWith at hrun
  cases hra : runAux fuel t with
  | error e => rw [hra] at hrun; exact absurd hrun (by simp [Except.map])
  | ok rows =>
    rw [hra] at hrun
    simp only [Except.map, Except.ok.injEq] at hrun
    obtain ⟨h1, h2, h3⟩ := runAux_spec t.meta.timeStep t.meta.runTime hd fuel t rows rfl rfl hra
    have hout : log.output = rows := by rw [← hrun]
    subst hout
    constructor
    · have := h1 (by rw [h0]; exact hT)
      rwa [h0, sub_zero] at this
    · intro i hi
      have := h3 i hi
      rwa [h0, zero_add] at this

/-- c3w_step: one empty-population iteration of the C3 witness run. -/
theorem c3w_step (fuel : ℕ) (c : ℝ) (rows : List SimulationLogRow) (h1 : c ≤ 2)
    (h3 : runAux fuel (c3wT (c + 1)) = .ok rows) :
    runAux (fuel + 1) (c3wT c) = .ok ({ timestamp := c, serviceLogs := [] } :: rows) := by
  apply runAux_step fuel (c3wT c) (c3wT c) _ rows h1
  · exact stepF_nil (c3wT c) rfl
  · exact h3

/-- c3w_run: the C3 witness run produces the three-row log. -/
theorem c3w_run : (c3wT 0).runWith 4 = .ok c3wLog := by
  have e1 : c3wT ((0:ℝ) + 1) = c3wT 1 := by norm_num
  have e2 : c3wT ((1:ℝ) + 1) = c3wT 2 := by norm_num
  have e3 : c3wT ((2:ℝ) + 1) = c3wT 3 := by norm_num
  have h3 : runAux 1 (c3wT 3) = .ok [] := runAux_done 0 _ (by norm_num [c3wT])
  have h2 : runAux 2 (c3wT 2) = .ok [{ timestamp := 2, serviceLogs := [] }] := by
    apply c3w_step 1 2 _ (by norm_num)
    rw [e3]; exact h3
  have h1 : runAux 3 (c3wT 1) = .ok
      [{ timestamp := 1, serviceLogs := [] }, { timestamp := 2, serviceLogs := [] }] := by
    apply c3w_step 2 1 _ (by norm_num)
    rw [e2]; exact h2
  have h0 : runAux 4 (c3wT 0) = .ok c3wLog.output := by
    apply c3w_step 3 0 _ (by norm_num)
    rw [e1]; exact h1
  unfold TMS.runWith
  rw [h0]
  rfl

/-- C3_row_count_timestamps_witness: the amended claim C3 instantiated on
the concrete witness run with `runTime = 2`, `timeStep = 1`. -/
theorem C3_row_count_timestamps_witness :
    0 < (c3wT 0).meta.timeStep ∧ 0 ≤ (c3wT 0).meta.runTime ∧
    ((c3wLog.output.length : ℤ) = ⌊(c3wT 0).meta.runTime / (c3wT 0).meta.timeStep⌋ + 1 ∧
     ∀ (i : ℕ) (hi : i < c3wLog.output.length),
       (c3wLog.output.get ⟨i, hi⟩).timestamp = (i : ℝ) * (c3wT 0).meta.timeStep) :=
  ⟨by norm_num [c3wT], by norm_num [c3wT],
   C3_row_count_timestamps (c3wT 0) 4 c3wLog (by norm_num [c3wT]) (by norm_num [c3wT])
     rfl c3w_run⟩

/-! ### Claim C1: counterexample run -/

/-- motionPass_pair: the motion pass over a two-service population. -/
theorem motionPass_pair (g : Graph) (mins : List (String × EReal)) (c dt : ℝ)
    (s1 s2 s1' s2' : SimService)
    (h1 : stepService g mins [s1, s2] c dt s1 = .ok s1')
    (h2 : stepService g mins [s1', s2] c dt s2 = .ok s2') :
    motionPass g mins c dt [] [s1, s2] = .ok [s1', s2'] := by
  have e1 : ([] : List SimService) ++ s1 :: [s2] = [s1, s2] := rfl
  have e2 : ([] : List SimService) ++ [s1'] = [s1'] := rfl
  rw [motionPass, e1, h1]
  simp only [Bind.bind, Except.bind, e2]
  rw [motionPass, show [s1'] ++ s2 :: [] = [s1', s2] from rfl, h2]
  simp [motionPass, Bind.bind, Except.bind]

/-- c1_step_stationary: both C1 services are held by their departure
delay at `curTime = 0`. -/
theorem c1_step_stationary (mins : List (String × EReal)) (svcs : List SimService)
    (svc : Service) (hsvc : svc.departureDelay = 10) :
    stepService (scenarioGraph none) mins svcs 0 1 (c1Sim svc) = .ok (c1Sim svc) := by
  simp only [stepService, c1Sim]
  norm_num [SimService.departureDelay, hsvc]

/-- c1_newTMS: `NewTMS` accepts the co-located two-service input. -/
theorem c1_newTMS : newTMS c1Input = .ok c1Tms := by
  unfold newTMS c1Input
  simp only []
  rw [scenario_newGraph]
  simp [Bind.bind, Except.bind, List.foldlM, newTMSStep, getFirstStop, c1Service1,
    c1Service2, scenario_pathStart, newSimService, c1Tms, c1Sim, pure, Except.pure]

/-- c1_run: the single step of the C1 run leaves both services co-located
at distance 0 on edge `AB`. -/
theorem c1_run : c1Tms.run = .ok c1Log := by
  unfold TMS.run TMS.runWith
  have hf : (⌊c1Tms.meta.runTime / c1Tms.meta.timeStep⌋).toNat + 2 = 2 := by
    have : c1Tms.meta.runTime / c1Tms.meta.timeStep = (0 : ℝ) := by
      norm_num [c1Tms]
    rw [this]
    norm_num
  rw [hf]
  have hstep : c1Tms.stepF =
      .ok ({ timestamp := 0,
             serviceLogs := [(c1Sim c1Service1).getLog, (c1Sim c1Service2).getLog] },
           c1Tms) := by
    unfold TMS.stepF
    simp only [Bind.bind, Except.bind]
    have hmp := motionPass_pair (scenarioGraph none)
      (minMAsOf [c1Sim c1Service1, c1Sim c1Service2]) 0 1
      (c1Sim c1Service1) (c1Sim c1Service2) (c1Sim c1Service1) (c1Sim c1Service2)
      (c1_step_stationary _ _ c1Service1 rfl) (c1_step_stationary _ _ c1Service2 rfl)
    rw [show c1Tms.graph = scenarioGraph none from rfl,
        show c1Tms.services = [c1Sim c1Service1, c1Sim c1Service2] from rfl,
        show c1Tms.curTime = (0 : ℝ) from rfl,
        show c1Tms.meta.timeStep = (1 : ℝ) from rfl,
        hmp]
    simp [c1Tms]
  have hdone : runAux 1 { c1Tms with curTime := c1Tms.curTime + c1Tms.meta.timeStep } =
      .ok [] := by
    apply runAux_done
    norm_num [c1Tms]
  rw [runAux_step 1 c1Tms c1Tms _ [] (by norm_num [c1Tms]) hstep hdone]
  rfl

/-- C1_counterexample: claim C1 is false as stated — `NewTMS` accepts an
input that places two services at the same node; at the end of the first
step both sit at distance 0 on the same edge, separated by 0 m, less than
the 50 m vehicle length. -/
theorem C1_counterexample : ¬ claimC1Stated := by
  intro h
  have := h c1Input c1Tms c1Log c1_newTMS c1_run
    { timestamp := 0,
      serviceLogs := [(c1Sim c1Service1).getLog, (c1Sim c1Service2).getLog] }
    (by simp [c1Log]) (c1Sim c1Service1).getLog (by simp) (c1Sim c1Service2).getLog
    (by simp)
    (by simp [SimService.getLog, SimService.serviceID, c1Sim, c1Service1, c1Service2])
    (by simp [SimService.getLog, c1Sim])
    (by simp [SimService.getLog, c1Sim])
  have hlen : vehicleLengthOf c1Input (c1Sim c1Service1).getLog.serviceID = 50 := by
    simp [vehicleLengthOf, c1Input, SimService.getLog, SimService.serviceID, c1Sim,
      c1Service1, c1Service2, scenarioVehicle, List.find?]
  rw [hlen] at this
  have hpos : (c1Sim c1Service1).getLog.currentPosition.distanceAlongEdge -
      (c1Sim c1Service2).getLog.currentPosition.distanceAlongEdge = 0 := by
    simp [SimService.getLog, c1Sim]
  rw [hpos] at this
  exact absurd this (by norm_num)

/-! ### Claim C2: counterexample run -/

/-- c2_newTMS: `NewTMS` accepts the negative-speed-limit input. -/
theorem c2_newTMS : newTMS c2Input = .ok (c2T 0 c2s0) := by
  unfold newTMS c2Input
  simp only []
  rw [scenario_newGraph]
  simp [Bind.bind, Except.bind, List.foldlM, newTMSStep, getFirstStop, c2Service,
    scenario_pathStart, newSimService, c2T, c2s0, pure, Except.pure]

/-- c2_step0: at `curTime = 0` the zero-delay service starts accelerating
without moving. -/
theorem c2_step0 (mins : List (String × EReal)) :
    stepService (scenarioGraph (some (-5))) mins [c2s0] 0 1 c2s0 = .ok c2s1 := by
  simp only [stepService, c2s0, c2Service, c2s1]
  norm_num [SimService.departureDelay]

/-- c2_dist_to_stop: the C2 service is 1000 m from its stop. -/
theorem c2_dist_to_stop : distanceToNextStop (scenarioGraph (some (-5))) c2s1 = .ok 1000 := by
  simp [distanceToNextStop, getEdgeByID, scenarioGraph, scenarioEdge, nodeA, nodeB,
    c2s1, c2s0, Bind.bind, Except.bind, pure, Except.pure]

/-- c2_sl_info: the negative edge speed limit becomes the effective
`currentMax` because the source compares `*edge.SpeedLimit < currentMax`. -/
theorem c2_sl_info : getSpeedLimitInfo (scenarioGraph (some (-5))) c2s1 =
    .ok { currentMax := -5, distToChange := 1000, nextMax := 0 } := by
  simp [getSpeedLimitInfo, getEdgeByID, scenarioGraph, scenarioEdge, nodeA, nodeB,
    c2s1, c2s0, c2Service, c2Vehicle, SimService.vehicle, ConstantAcceleration.vmax,
    Bind.bind, Except.bind, pure, Except.pure]
  norm_num

/-- c2_propose: priority 3 fires (`v > effectiveVMax` with
`effectiveVMax = -5`) and `DecelerateStep(0, -5, 1)` yields velocity -1. -/
theorem c2_propose :
    proposeMovement c2s1 1 1000 { currentMax := -5, distToChange := 1000, nextMax := 0 } =
      (0, -1, .decelerating) := by
  simp only [proposeMovement, c2s1, c2s0, c2Service, c2Vehicle, SimService.vehicle,
    ConstantAcceleration.brakingDistance, ConstantAcceleration.decelerateStep]
  norm_num [EReal.coe_le_coe_iff]

/-- c2_advance: a zero granted distance does not move the service. -/
theorem c2_advance : advancePosition (scenarioGraph (some (-5))) 3 c2s1 0 =
    .ok (false, c2s1) := by
  rw [advancePosition]
  rw [if_pos (by norm_num)]

/-- c2_step1: the step at `curTime = 1` drives the velocity to -1. -/
theorem c2_step1 (mins : List (String × EReal)) :
    stepService (scenarioGraph (some (-5))) mins [c2s1] 1 1 c2s1 = .ok c2s2 := by
  have hms : stepMovingService (scenarioGraph (some (-5))) mins [c2s1] 1 c2s1 = .ok c2s2 := by
    unfold stepMovingService
    rw [c2_dist_to_stop]
    simp only [Bind.bind, Except.bind]
    rw [c2_sl_info]
    simp only [c2_propose]
    have hma : computeMaxAllowedDistance c2s1 [c2s1] mins = maxFloat64 := by
      simp [computeMaxAllowedDistance, maFold, List.foldl, SimService.serviceID, c2s1, c2s0, c2Service]
    rw [hma]
    have hmin : min (0 : ℝ) maxFloat64 = 0 :=
      min_eq_left (le_trans (by norm_num) maxFloat64_big)
    rw [hmin]
    rw [if_neg (by norm_num)]
    have hg : (scenarioGraph (some (-5))).nodes.length + 1 = 3 := by
      simp [scenarioGraph]
    rw [hg, c2_advance]
    simp [c2s2, c2s1, c2s0]
  have hst : c2s1.state = ServiceState.accelerating := rfl
  simp [stepService, hst, hms]

/-- c2T_step: one loop iteration of the C2 run. -/
theorem c2T_step (fuel : ℕ) (c : ℝ) (svc svc' : SimService)
    (rows : List SimulationLogRow) (h1 : c ≤ 1)
    (h2 : stepService (scenarioGraph (some (-5))) (minMAsOf [svc]) [svc] c 1 svc = .ok svc')
    (h3 : runAux fuel (c2T (c + 1) svc') = .ok rows) :
    runAux (fuel + 1) (c2T c svc) =
      .ok ({ timestamp := c, serviceLogs := [svc'.getLog] } :: rows) := by
  apply runAux_step fuel (c2T c svc) (c2T c svc') _ rows h1
  · exact stepF_single (c2T c svc) svc svc' rfl h2
  · exact h3

/-- c2_run: the full C2 run result; the row at t = 1 logs velocity -1. -/
theorem c2_run : (c2T 0 c2s0).run = .ok c2Log := by
  unfold TMS.run TMS.runWith
  have hf : (⌊(c2T 0 c2s0).meta.runTime / (c2T 0 c2s0).meta.timeStep⌋).toNat + 2 = 3 := by
    have : (c2T 0 c2s0).meta.runTime / (c2T 0 c2s0).meta.timeStep = (1 : ℝ) := by
      norm_num [c2T]
    rw [this]
    norm_num
  have e1 : c2T ((0:ℝ) + 1) c2s1 = c2T 1 c2s1 := by norm_num
  have e2 : c2T ((1:ℝ) + 1) c2s2 = c2T 2 c2s2 := by norm_num
  have h2 : runAux 1 (c2T 2 c2s2) = .ok [] := runAux_done 0 _ (by norm_num [c2T])
  have h1 : runAux 2 (c2T 1 c2s1) =
      .ok [{ timestamp := 1, serviceLogs := [c2s2.getLog] }] := by
    apply c2T_step 1 1 c2s1 c2s2 _ (by norm_num) (c2_step1 _)
    rw [e2]; exact h2
  have h0 : runAux 3 (c2T 0 c2s0) = .ok c2Log.output := by
    apply c2T_step 2 0 c2s0 c2s1 _ (by norm_num) (c2_step0 _)
    rw [e1]; exact h1
  rw [hf, h0]
  rfl

/-- C2_counterexample: claim C2 is false as stated — an accepted input
whose kinematics parameters are all nonnegative but whose edge speed limit
is -5 drives the logged velocity to -1 at t = 1 (the engine "decelerates
toward" the negative limit). -/
theorem C2_counterexample : ¬ claimC2Stated := by
  intro h
  have := h c2Input (c2T 0 c2s0) c2Log
    (by
      intro svc hsvc
      simp only [c2Input, List.mem_singleton] at hsvc
      subst hsvc
      norm_num [c2Service, c2Vehicle])
    c2_newTMS c2_run { timestamp := 1, serviceLogs := [c2s2.getLog] }
    (by simp [c2Log]) 0 (by simp) (by simp [c2Input])
  rcases this with ⟨hv, _⟩
  have : (0 : ℝ) ≤ -1 := by
    simpa [SimService.getLog, c2s2, c2s1, c2s0] using hv
  exact absurd this (by norm_num)

/-! ### Claim C9 -/

/-- advancePosition_preserves: walking a service along the graph changes
only its position — its static definition, state, velocity, remaining
dwell, and next-stop pointer are untouched. -/
theorem advancePosition_preserves (g : Graph) :
    ∀ (fuel : ℕ) (svc : SimService) (dist : ℝ) (b : Bool) (svc' : SimService),
      advancePosition g fuel svc dist = .ok (b, svc') →
      svc'.service = svc.service ∧ svc'.state = svc.state ∧ svc'.velocity = svc.velocity ∧
      svc'.remainingDwell = svc.remainingDwell ∧ svc'.nextStop = svc.nextStop ∧
      svc'.nextStopIndex = svc.nextStopIndex := by
  intro fuel
  induction fuel with
  | zero => intro svc dist b svc' h; exact absurd h (by simp [advancePosition])
  | succ fuel ih =>
    intro svc dist b svc' h
    rw [advancePosition] at h
    by_cases h0 : dist ≤ 0
    · rw [if_pos h0] at h
      simp only [Except.ok.injEq, Prod.mk.injEq] at h
      rcases h with ⟨_, h2⟩
      subst h2
      exact ⟨rfl, rfl, rfl, rfl, rfl, rfl⟩
    · rw [if_neg h0] at h
      simp only [Bind.bind, Except.bind] at h
      cases he : getEdgeByID g svc.currentPosition.edge with
      | error e => rw [he] at h; exact absurd h (by simp)
      | ok edge =>
        rw [he] at h
        dsimp only at h
        by_cases h1 : dist < edge.length - svc.currentPosition.distanceAlongEdge
        · rw [if_pos h1] at h
          simp only [Except.ok.injEq, Prod.mk.injEq] at h
          rcases h with ⟨_, h2⟩
          subst h2
          exact ⟨rfl, rfl, rfl, rfl, rfl, rfl⟩
        · rw [if_neg h1] at h
          by_cases h2 : edge.v = svc.nextStop
          · rw [if_pos h2] at h
            simp only [Except.ok.injEq, Prod.mk.injEq] at h
            rcases h with ⟨_, h3⟩
            subst h3
            exact ⟨rfl, rfl, rfl, rfl, rfl, rfl⟩
          · rw [if_neg h2] at h
            cases hn : getNextEdge g edge.v svc.nextStop with
            | error e => rw [hn] at h; exact absurd h (by simp)
            | ok ne =>
              rw [hn] at h
              dsimp only at h
              obtain ⟨h1, h2, h3, h4, h5, h6⟩ := ih _ _ _ _ h
              exact ⟨h1, h2, h3, h4, h5, h6⟩

/-- C9_ma_standstill: claim C9 confirmed — when the MA trim grants a
distance whose `VelocityAfterBraking` is `≤ 0` and the service does not
arrive, the step sets the state to `dwelling` with velocity 0 *without*
calling `startDwell`: `RemainingDwell` (0 for a moving service) and the
next-stop pointer are unchanged.  On the next step `AdvanceDwell`
(decrementing 0 to `≤ 0` for any positive `dt`) moves the service straight
back to `accelerating`, again without touching the pointer: an MA-forced
standstill lasts exactly one step and never advances the next-stop
pointer. -/
theorem C9_ma_standstill (g : Graph) (minMAs : List (String × EReal))
    (services : List SimService) (dt : ℝ) (svc svcAdv : SimService) (d : ℝ)
    (sl : SpeedLimitInfo)
    (hd : distanceToNextStop g svc = .ok d)
    (hsl : getSpeedLimitInfo g svc = .ok sl)
    (htrim : min (proposeMovement svc dt d sl).1
        (computeMaxAllowedDistance svc services minMAs) < (proposeMovement svc dt d sl).1)
    (hvab : svc.vehicle.kinem.velocityAfterBraking svc.velocity
        (min (proposeMovement svc dt d sl).1
          (computeMaxAllowedDistance svc services minMAs)) ≤ 0)
    (hadv : advancePosition g (g.nodes.length + 1) svc
        (min (proposeMovement svc dt d sl).1
          (computeMaxAllowedDistance svc services minMAs)) = .ok (false, svcAdv))
    (hrd : svc.remainingDwell = 0) :
    stepMovingService g minMAs services dt svc =
      .ok { svcAdv with velocity := 0, state := .dwelling } ∧
    svcAdv.nextStopIndex = svc.nextStopIndex ∧
    svcAdv.remainingDwell = 0 ∧
    svcAdv.nextStop = svc.nextStop ∧
    ∀ dt' : ℝ, 0 < dt' →
      (SimService.advanceDwell { svcAdv with velocity := 0, state := .dwelling } dt').state =
        ServiceState.accelerating ∧
      (SimService.advanceDwell { svcAdv with velocity := 0, state := .dwelling } dt').velocity
        = 0 ∧
      (SimService.advanceDwell { svcAdv with velocity := 0, state := .dwelling }
        dt').nextStopIndex = svc.nextStopIndex ∧
      (SimService.advanceDwell { svcAdv with velocity := 0, state := .dwelling } dt').nextStop
        = svc.nextStop := by
  obtain ⟨hsvc, hst, hvel, hrda, hns, hidx⟩ :=
    advancePosition_preserves g (g.nodes.length + 1) svc _ false svcAdv hadv
  have hrdz : svcAdv.remainingDwell = 0 := hrda.trans hrd
  refine ⟨?_, hidx, hrdz, hns, ?_⟩
  · unfold stepMovingService
    simp only [Bind.bind, Except.bind]
    rw [hd, hsl]
    dsimp only
    rw [hadv]
    dsimp only
    rw [if_pos htrim]
    unfold constrainedKinematics
    dsimp only
    rw [if_pos hvab]
    simp
  · intro dt' hdt'
    have hr2 : ({ svcAdv with velocity := 0, state := ServiceState.dwelling } :
        SimService).remainingDwell - dt' ≤ 0 := by
      simp only [hrdz]
      linarith
    simp [SimService.advanceDwell, hr2, SimService.endDwell, hidx, hns]

/-- c9_dist_to_stop: the C9 follower is 940 m from its stop. -/
theorem c9_dist_to_stop : distanceToNextStop (scenarioGraph none) c9Follower = .ok 940 := by
  simp [distanceToNextStop, getEdgeByID, scenarioGraph, scenarioEdge, nodeA, nodeB,
    c9Follower, c9FollowerService, Bind.bind, Except.bind, pure, Except.pure]
  norm_num

/-- c9_sl_info: speed limit context of the C9 follower. -/
theorem c9_sl_info : getSpeedLimitInfo (scenarioGraph none) c9Follower =
    .ok { currentMax := 20, distToChange := 940, nextMax := 0 } := by
  simp [getSpeedLimitInfo, getEdgeByID, scenarioGraph, scenarioEdge, nodeA, nodeB,
    c9Follower, c9FollowerService, scenarioVehicle, SimService.vehicle,
    ConstantAcceleration.vmax, Bind.bind, Except.bind, pure, Except.pure]
  norm_num

/-- c9_propose: the follower proposes to accelerate 0.25 m. -/
theorem c9_propose :
    proposeMovement c9Follower 1 940 { currentMax := 20, distToChange := 940, nextMax := 0 } =
      (0.25, 0.5, .accelerating) := by
  simp only [proposeMovement, c9Follower, c9FollowerService, scenarioVehicle,
    SimService.vehicle, ConstantAcceleration.brakingDistance,
    ConstantAcceleration.accelerateStep]
  norm_num [EReal.coe_le_coe_iff]

/-- c9_ma: the leader 40 m ahead (closer than its 50 m length) trims the
follower's movement authority to 0. -/
theorem c9_ma :
    computeMaxAllowedDistance c9Follower [c9Leader, c9Follower]
      (minMAsOf [c9Leader, c9Follower]) = 0 := by
  have hlk : lookupMA (minMAsOf [c9Leader, c9Follower]) c9Leader.serviceID =
      ((0 : ℝ) : EReal) := by
    simp [lookupMA, minMAsOf, SimService.serviceID, c9Leader, c9Follower,
      c9LeaderService, c9FollowerService, SimService.brakingDistance,
      ConstantAcceleration.brakingDistance, SimService.vehicle, scenarioVehicle]
    norm_num
  have step1 : maFold c9Follower (minMAsOf [c9Leader, c9Follower]) ⊤ c9Leader =
      ((-10 : ℝ) : EReal) := by
    unfold maFold
    rw [if_neg (by simp [SimService.serviceID, c9Leader, c9Follower, c9LeaderService,
      c9FollowerService])]
    rw [if_neg (by simp [c9Leader, c9Follower])]
    rw [if_neg (by norm_num [c9Leader, c9Follower])]
    dsimp only
    rw [hlk]
    have hall : ((c9Leader.currentPosition.distanceAlongEdge -
        c9Leader.vehicle.length : ℝ) : EReal) - ((0 : ℝ) : EReal) -
        ((c9Follower.currentPosition.distanceAlongEdge : ℝ) : EReal) =
        ((-10 : ℝ) : EReal) := by
      rw [← EReal.coe_sub, ← EReal.coe_sub]
      norm_num [c9Leader, c9Follower, SimService.vehicle, c9LeaderService, scenarioVehicle]
    rw [hall]
    rw [if_pos (lt_top_iff_ne_top.mpr (EReal.coe_ne_top _))]
  have step2 : maFold c9Follower (minMAsOf [c9Leader, c9Follower]) ((-10 : ℝ) : EReal)
      c9Follower = ((-10 : ℝ) : EReal) := by
    unfold maFold
    rw [if_pos rfl]
  unfold computeMaxAllowedDistance
  simp only [List.foldl]
  rw [step1, step2]
  rw [if_neg (EReal.coe_ne_top _)]
  have hle : ((-10 : ℝ) : EReal) ≤ (0 : EReal) := by
    rw [show (0 : EReal) = ((0 : ℝ) : EReal) from EReal.coe_zero.symm]
    exact EReal.coe_le_coe_iff.mpr (by norm_num)
  have hmax : max (0 : EReal) ((-10 : ℝ) : EReal) = ((0 : ℝ) : EReal) := by
    rw [max_eq_left hle]
    exact EReal.coe_zero.symm
  rw [hmax]
  exact EReal.toReal_coe 0

/-- c9_granted: the trimmed grant is 0, strictly below the 0.25 m
proposal. -/
theorem c9_granted :
    min (proposeMovement c9Follower 1 940
        { currentMax := 20, distToChange := 940, nextMax := 0 }).1
      (computeMaxAllowedDistance c9Follower [c9Leader, c9Follower]
        (minMAsOf [c9Leader, c9Follower])) = 0 := by
  rw [c9_propose, c9_ma]
  norm_num

/-- C9_ma_standstill_witness: claim C9 exercised on the concrete witness
scenario: the accelerating follower 40 m behind the stopped leader is
trimmed to a standstill, parks in `dwelling` for one step with its pointer
untouched, and re-enters `accelerating` on the next 1-second step. -/
theorem C9_ma_standstill_witness :
    stepMovingService (scenarioGraph none) (minMAsOf [c9Leader, c9Follower])
      [c9Leader, c9Follower] 1 c9Follower =
      .ok { c9Follower with velocity := 0, state := .dwelling } ∧
    c9Follower.nextStopIndex = c9Follower.nextStopIndex ∧
    c9Follower.remainingDwell = 0 ∧
    c9Follower.nextStop = c9Follower.nextStop ∧
    ∀ dt' : ℝ, 0 < dt' →
      (SimService.advanceDwell { c9Follower with velocity := 0, state := .dwelling }
        dt').state = ServiceState.accelerating ∧
      (SimService.advanceDwell { c9Follower with velocity := 0, state := .dwelling }
        dt').velocity = 0 ∧
      (SimService.advanceDwell { c9Follower with velocity := 0, state := .dwelling }
        dt').nextStopIndex = c9Follower.nextStopIndex ∧
      (SimService.advanceDwell { c9Follower with velocity := 0, state := .dwelling }
        dt').nextStop = c9Follower.nextStop := by
  have hvab : c9Follower.vehicle.kinem.velocityAfterBraking c9Follower.velocity
      (min (proposeMovement c9Follower 1 940
          { currentMax := 20, distToChange := 940, nextMax := 0 }).1
        (computeMaxAllowedDistance c9Follower [c9Leader, c9Follower]
          (minMAsOf [c9Leader, c9Follower]))) ≤ 0 := by
    rw [c9_granted]
    simp [ConstantAcceleration.velocityAfterBraking, c9Follower, c9FollowerService,
      SimService.vehicle, scenarioVehicle]
  have hadv : advancePosition (scenarioGraph none) ((scenarioGraph none).nodes.length + 1)
      c9Follower
      (min (proposeMovement c9Follower 1 940
          { currentMax := 20, distToChange := 940, nextMax := 0 }).1
        (computeMaxAllowedDistance c9Follower [c9Leader, c9Follower]
          (minMAsOf [c9Leader, c9Follower]))) = .ok (false, c9Follower) := by
    rw [c9_granted]
    rw [show (scenarioGraph none).nodes.length + 1 = 3 by simp [scenarioGraph]]
    rw [advancePosition]
    rw [if_pos le_rfl]
  have htrim : min (proposeMovement c9Follower 1 940
        { currentMax := 20, distToChange := 940, nextMax := 0 }).1
      (computeMaxAllowedDistance c9Follower [c9Leader, c9Follower]
        (minMAsOf [c9Leader, c9Follower])) <
      (proposeMovement c9Follower 1 940
        { currentMax := 20, distToChange := 940, nextMax := 0 }).1 := by
    rw [c9_granted, c9_propose]
    norm_num
  exact C9_ma_standstill (scenarioGraph none) (minMAsOf [c9Leader, c9Follower])
    [c9Leader, c9Follower] 1 c9Follower c9Follower 940
    { currentMax := 20, distToChange := 940, nextMax := 0 }
    c9_dist_to_stop c9_sl_info htrim hvab hadv rfl

/-! ### Claim C1: the amended per-step MA bound -/

/-- ereal_coe_max: the real coercion into `EReal` commutes with `max`. -/
theorem ereal_coe_max (a b : ℝ) : ((max a b : ℝ) : EReal) = max (a : EReal) (b : EReal) := by
  rcases le_total a b with h | h
  · rw [max_eq_right h, max_eq_right (EReal.coe_le_coe_iff.mpr h)]
  · rw [max_eq_left h, max_eq_left (EReal.coe_le_coe_iff.mpr h)]

/-- maFold_le_acc: the MA loop body never increases the running minimum. -/
theorem maFold_le_acc (svc : SimService) (minMAs : List (String × EReal)) (acc : EReal)
    (o : SimService) : maFold svc minMAs acc o ≤ acc := by
  unfold maFold
  split_ifs with h1 h2 h3
  · exact le_rfl
  · exact le_rfl
  · exact le_rfl
  · dsimp only
    split_ifs with h4
    · exact le_of_lt h4
    · exact le_rfl

/-- foldl_maFold_le: the MA fold result is at most its starting value. -/
theorem foldl_maFold_le (svc : SimService) (minMAs : List (String × EReal)) :
    ∀ (l : List SimService) (acc : EReal), l.foldl (maFold svc minMAs) acc ≤ acc := by
  intro l
  induction l with
  | nil => intro acc; exact le_rfl
  | cons o rest ih =>
    intro acc
    calc rest.foldl (maFold svc minMAs) (maFold svc minMAs acc o)
        ≤ maFold svc minMAs acc o := ih _
      _ ≤ acc := maFold_le_acc svc minMAs acc o

/-- maFold_cand_le: on a qualifying candidate (different id, same edge,
strictly ahead) the loop body's result is bounded by that candidate's
allowed distance. -/
theorem maFold_cand_le (svc : SimService) (minMAs : List (String × EReal))
    (acc : EReal) (other : SimService)
    (hid : other.serviceID ≠ svc.serviceID)
    (hedge : other.currentPosition.edge = svc.currentPosition.edge)
    (hpos : svc.currentPosition.distanceAlongEdge < other.currentPosition.distanceAlongEdge) :
    maFold svc minMAs acc other ≤
      ((other.currentPosition.distanceAlongEdge - other.vehicle.length : ℝ) : EReal) -
        lookupMA minMAs other.serviceID -
        ((svc.currentPosition.distanceAlongEdge : ℝ) : EReal) := by
  unfold maFold
  rw [if_neg hid, if_neg (by simp [hedge]), if_neg (not_le.mpr hpos)]
  dsimp only
  split_ifs with h
  · exact le_rfl
  · exact le_of_not_lt h

/-- foldl_maFold_cand: the MA fold result is bounded by any qualifying
candidate's allowed distance. -/
theorem foldl_maFold_cand (svc : SimService) (minMAs : List (String × EReal))
    (other : SimService)
    (hid : other.serviceID ≠ svc.serviceID)
    (hedge : other.currentPosition.edge = svc.currentPosition.edge)
    (hpos : svc.currentPosition.distanceAlongEdge < other.currentPosition.distanceAlongEdge) :
    ∀ (l : List SimService) (acc : EReal), other ∈ l →
      l.foldl (maFold svc minMAs) acc ≤
        ((other.currentPosition.distanceAlongEdge - other.vehicle.length : ℝ) : EReal) -
          lookupMA minMAs other.serviceID -
          ((svc.currentPosition.distanceAlongEdge : ℝ) : EReal) := by
  intro l
  induction l with
  | nil => intro acc hmem; exact absurd hmem (by simp)
  | cons o rest ih =>
    intro acc hmem
    rcases List.mem_cons.mp hmem with rfl | hmem2
    · calc rest.foldl (maFold svc minMAs) (maFold svc minMAs acc other)
          ≤ maFold svc minMAs acc other := foldl_maFold_le svc minMAs rest _
        _ ≤ _ := maFold_cand_le svc minMAs acc other hid hedge hpos
    · exact ih _ hmem2

/-- C1_ma_trim_respects_leader_zone: the amended claim C1 — for a service
with a strictly-ahead same-edge candidate whose braking-map entry is a
finite nonnegative `ma`, `computeMaxAllowedDistance` never exceeds the
clamped distance to the candidate's protected-zone start, so the granted
move `min(proposed, maxAllowed)` never takes the subject's front past
`otherPos − other.length − ma` unless it already was past it.  (The claim
as stated is refuted by `C1_counterexample`: services at identical
positions — e.g. two services accepted at the same starting node — are
skipped by the `otherPos ≤ myPos` guard and are not separated.) -/
theorem C1_ma_trim_respects_leader_zone (svc other : SimService)
    (others : List SimService) (minMAs : List (String × EReal)) (ma p : ℝ)
    (hmem : other ∈ others) (hid : other.serviceID ≠ svc.serviceID)
    (hedge : other.currentPosition.edge = svc.currentPosition.edge)
    (hpos : svc.currentPosition.distanceAlongEdge < other.currentPosition.distanceAlongEdge)
    (hma : lookupMA minMAs other.serviceID = ((ma : ℝ) : EReal)) (hma0 : 0 ≤ ma) :
    computeMaxAllowedDistance svc others minMAs ≤
      max 0 (other.currentPosition.distanceAlongEdge - other.vehicle.length - ma -
        svc.currentPosition.distanceAlongEdge) ∧
    svc.currentPosition.distanceAlongEdge +
        min p (computeMaxAllowedDistance svc others minMAs) ≤
      max svc.currentPosition.distanceAlongEdge
        (other.currentPosition.distanceAlongEdge - other.vehicle.length - ma) := by
  have hM := foldl_maFold_cand svc minMAs other hid hedge hpos others ⊤ hmem
  rw [hma, ← EReal.coe_sub, ← EReal.coe_sub] at hM
  set aR : ℝ := other.currentPosition.distanceAlongEdge - other.vehicle.length - ma -
    svc.currentPosition.distanceAlongEdge with haR
  have hbound : computeMaxAllowedDistance svc others minMAs ≤ max 0 aR := by
    unfold computeMaxAllowedDistance
    rw [if_neg (ne_top_of_le_ne_top (EReal.coe_ne_top aR) hM)]
    have h1 : max 0 (others.foldl (maFold svc minMAs) ⊤) ≤ ((max 0 aR : ℝ) : EReal) := by
      rw [ereal_coe_max, EReal.coe_zero]
      exact max_le_max le_rfl hM
    have h0b : (max 0 (others.foldl (maFold svc minMAs) ⊤) : EReal) ≠ ⊥ := by
      intro hcon
      have : (0 : EReal) ≤ ⊥ := hcon ▸ le_max_left _ _
      simp at this
    calc (max 0 (others.foldl (maFold svc minMAs) ⊤)).toReal
        ≤ (((max 0 aR : ℝ) : EReal)).toReal :=
          EReal.toReal_le_toReal h1 h0b (EReal.coe_ne_top _)
      _ = max 0 aR := EReal.toReal_coe _
  refine ⟨hbound, ?_⟩
  have hmin : min p (computeMaxAllowedDistance svc others minMAs) ≤ max 0 aR :=
    le_trans (min_le_right _ _) hbound
  rcases le_total 0 aR with h | h
  · have hz : other.currentPosition.distanceAlongEdge - other.vehicle.length - ma =
        svc.currentPosition.distanceAlongEdge + aR := by rw [haR]; ring
    have hmr : max svc.currentPosition.distanceAlongEdge
        (other.currentPosition.distanceAlongEdge - other.vehicle.length - ma) =
        svc.currentPosition.distanceAlongEdge + aR := by
      rw [hz]; exact max_eq_right (by linarith)
    have hm0 : max (0 : ℝ) aR = aR := max_eq_right h
    rw [hmr]
    rw [hm0] at hmin
    linarith
  · have : min p (computeMaxAllowedDistance svc others minMAs) ≤ 0 := by
      rw [max_eq_left h] at hmin
      exact hmin
    calc svc.currentPosition.distanceAlongEdge +
          min p (computeMaxAllowedDistance svc others minMAs)
        ≤ svc.currentPosition.distanceAlongEdge := by linarith
      _ ≤ _ := le_max_left _ _

/-- c9_lookup: the braking-map entry for the stopped leader is (finite)
zero. -/
theorem c9_lookup : lookupMA (minMAsOf [c9Leader, c9Follower]) c9Leader.serviceID =
    ((0 : ℝ) : EReal) := by
  simp [lookupMA, minMAsOf, SimService.serviceID, c9Leader, c9Follower,
    c9LeaderService, c9FollowerService, SimService.brakingDistance,
    ConstantAcceleration.brakingDistance, SimService.vehicle, scenarioVehicle]
  norm_num

/-- C1_ma_trim_respects_leader_zone_witness: the amended claim C1
instantiated on the concrete follower/leader pair with `ma = 0` and a 5 m
proposal. -/
theorem C1_ma_trim_respects_leader_zone_witness :
    computeMaxAllowedDistance c9Follower [c9Leader, c9Follower]
        (minMAsOf [c9Leader, c9Follower]) ≤
      max 0 (c9Leader.currentPosition.distanceAlongEdge - c9Leader.vehicle.length - 0 -
        c9Follower.currentPosition.distanceAlongEdge) ∧
    c9Follower.currentPosition.distanceAlongEdge +
        min 5 (computeMaxAllowedDistance c9Follower [c9Leader, c9Follower]
          (minMAsOf [c9Leader, c9Follower])) ≤
      max c9Follower.currentPosition.distanceAlongEdge
        (c9Leader.currentPosition.distanceAlongEdge - c9Leader.vehicle.length - 0) :=
  C1_ma_trim_respects_leader_zone c9Follower c9Leader [c9Leader, c9Follower]
    (minMAsOf [c9Leader, c9Follower]) 0 5 (by simp)
    (by simp [SimService.serviceID, c9Leader, c9Follower, c9LeaderService, c9FollowerService])
    rfl (by norm_num [c9Leader, c9Follower]) c9_lookup le_rfl

/-! ### Claim C2: the amended velocity-bounds invariant -/

/-- decelerateStep_newV_bounds: braking toward a target in `[0, W]` from a
velocity `≤ W` lands in `[0, W]`. -/
theorem decelerateStep_newV_bounds (c : ConstantAcceleration) (v targetV dt W : ℝ)
    (htv : 0 ≤ targetV) (htW : targetV ≤ W) (hvW : v ≤ W) (hdt : 0 ≤ dt) :
    0 ≤ (c.decelerateStep v targetV dt).2 ∧ (c.decelerateStep v targetV dt).2 ≤ W := by
  unfold ConstantAcceleration.decelerateStep
  split_ifs with h1
  · exact ⟨htv, htW⟩
  · push_neg at h1
    obtain ⟨ha, hv⟩ := h1
    dsimp only
    split_ifs with h2
    · exact ⟨htv, htW⟩
    · push_neg at h2
      have h2' : dt * c.ADcc < v - targetV := (lt_div_iff₀ ha).mp h2
      constructor
      · nlinarith
      · nlinarith [mul_nonneg ha.le hdt]

/-- decelerateStep_dist_nonneg: braking toward a nonnegative target never
reports a negative distance. -/
theorem decelerateStep_dist_nonneg (c : ConstantAcceleration) (v targetV dt : ℝ)
    (htv : 0 ≤ targetV) (hdt : 0 ≤ dt) : 0 ≤ (c.decelerateStep v targetV dt).1 := by
  unfold ConstantAcceleration.decelerateStep
  split_ifs with h1
  · exact mul_nonneg htv hdt
  · push_neg at h1
    obtain ⟨ha, hv⟩ := h1
    dsimp only
    split_ifs with h2
    · exact add_nonneg (le_max_left 0 _) (mul_nonneg htv (by linarith))
    · exact le_max_left 0 _

/-- accelerateStep_newV_bounds: accelerating toward a target in `[0, W]`
from a velocity in `[0, W]` lands in `[0, W]`. -/
theorem accelerateStep_newV_bounds (c : ConstantAcceleration) (v targetV dt W : ℝ)
    (hv0 : 0 ≤ v) (htv : 0 ≤ targetV) (hvW : v ≤ W) (htW : targetV ≤ W) (hdt : 0 ≤ dt) :
    0 ≤ (c.accelerateStep v targetV dt).2 ∧ (c.accelerateStep v targetV dt).2 ≤ W := by
  unfold ConstantAcceleration.accelerateStep
  split_ifs with h1
  · exact ⟨htv, htW⟩
  · push_neg at h1
    obtain ⟨ha, hv⟩ := h1
    dsimp only
    split_ifs with h2
    · exact ⟨htv, htW⟩
    · push_neg at h2
      have h2' : dt * c.AAcc < targetV - v := (lt_div_iff₀ ha).mp h2
      constructor
      · nlinarith [mul_nonneg ha.le hdt]
      · nlinarith

/-- accelerateStep_dist_nonneg: accelerating from a nonnegative velocity
toward a nonnegative target covers a nonnegative distance. -/
theorem accelerateStep_dist_nonneg (c : ConstantAcceleration) (v targetV dt : ℝ)
    (hv0 : 0 ≤ v) (htv : 0 ≤ targetV) (hdt : 0 ≤ dt) :
    0 ≤ (c.accelerateStep v targetV dt).1 := by
  unfold ConstantAcceleration.accelerateStep
  split_ifs with h1
  · exact mul_nonneg htv hdt
  · push_neg at h1
    obtain ⟨ha, hv⟩ := h1
    have ht0 : 0 ≤ (targetV - v) / c.AAcc := div_nonneg (by linarith) ha.le
    dsimp only
    split_ifs with h2
    · have := mul_nonneg hv0 ht0
      have := mul_nonneg htv (by linarith : 0 ≤ dt - (targetV - v) / c.AAcc)
      nlinarith [mul_nonneg ha.le (mul_nonneg ht0 ht0)]
    · nlinarith [mul_nonneg ha.le (mul_nonneg hdt hdt), mul_nonneg hv0 hdt]

/-- velocityAfterBraking_bounds: the post-trim velocity lies in `[0, v0]`
when the distance is nonnegative. -/
theorem velocityAfterBraking_bounds (c : ConstantAcceleration) (v0 d : ℝ)
    (hv : 0 ≤ v0) (hd : 0 ≤ d) :
    0 ≤ c.velocityAfterBraking v0 d ∧ c.velocityAfterBraking v0 d ≤ v0 := by
  unfold ConstantAcceleration.velocityAfterBraking
  split_ifs with h
  · exact ⟨hv, le_rfl⟩
  · push_neg at h
    refine ⟨Real.sqrt_nonneg _, ?_⟩
    have hle : max 0 (v0 * v0 - 2 * c.ADcc * d) ≤ v0 * v0 := by
      have : 0 ≤ 2 * c.ADcc * d := by positivity
      have hsq : 0 ≤ v0 * v0 := mul_nonneg hv hv
      exact max_le hsq (by linarith)
    calc Real.sqrt (max 0 (v0 * v0 - 2 * c.ADcc * d))
        ≤ Real.sqrt (v0 * v0) := Real.sqrt_le_sqrt hle
      _ = v0 := Real.sqrt_mul_self hv

/-- mem_of_getLast?_eq_some: the last element of a list is in the list. -/
theorem mem_of_getLast?_eq_some {α : Type} {l : List α} {a : α}
    (h : l.getLast? = some a) : a ∈ l := by
  have hmem : a ∈ l.getLast? := by rw [h]; rfl
  rcases List.mem_getLast?_eq_getLast hmem with ⟨hne, rfl⟩
  exact List.getLast_mem hne

/-- getEdgeByID_mem: a successful edge-id lookup returns an edge of the
graph. -/
theorem getEdgeByID_mem (g : Graph) (id : EdgeID) (e : Edge)
    (h : getEdgeByID g id = .ok e) : e ∈ g.edges := by
  unfold getEdgeByID at h
  cases hf : g.edges.find? (fun f => f.id == id) with
  | none => rw [hf] at h; exact absurd h (by simp)
  | some e' =>
    rw [hf] at h
    simp only [Except.ok.injEq] at h
    subst h
    exact List.mem_of_find?_eq_some hf

/-- getEdge_mem: a successful `(u, v)` lookup returns an edge of the
graph. -/
theorem getEdge_mem (g : Graph) (u v : NodeID) (e : Edge)
    (h : getEdge g u v = .ok e) : e ∈ g.edges := by
  unfold getEdge at h
  cases hf : (g.edges.filter (fun f => f.u == u && f.v == v)).getLast? with
  | none => rw [hf] at h; exact absurd h (by simp)
  | some e' =>
    rw [hf] at h
    simp only [Except.ok.injEq] at h
    subst h
    exact (List.mem_filter.mp (mem_of_getLast?_eq_some hf)).1

/-- getNextEdge_mem: a successful next-edge lookup returns an edge of the
graph. -/
theorem getNextEdge_mem (g : Graph) (u dest : NodeID) (e : Edge)
    (h : getNextEdge g u dest = .ok e) : e ∈ g.edges := by
  unfold getNextEdge at h
  simp only [Bind.bind, Except.bind] at h
  cases hp : getShortestPath g u dest with
  | error err => rw [hp] at h; exact absurd h (by simp)
  | ok path =>
    rw [hp] at h
    rcases path with ⟨pid, route, plen⟩
    match route with
    | [] => exact absurd h (by simp)
    | [r0] => exact absurd h (by simp)
    | r0 :: r1 :: rest => exact getEdge_mem g r0 r1 e h

/-- cmad_nonneg: `computeMaxAllowedDistance` is never negative — the Go
code clamps with `math.Max(0, maxDist)` and the unbounded sentinel is
`math.MaxFloat64`. -/
theorem cmad_nonneg (svc : SimService) (others : List SimService)
    (minMAs : List (String × EReal)) :
    0 ≤ computeMaxAllowedDistance svc others minMAs := by
  unfold computeMaxAllowedDistance
  dsimp only
  split_ifs with h
  · linarith [maxFloat64_big]
  · have h0 : ((0 : ℝ) : EReal) ≤ max 0 (others.foldl (maFold svc minMAs) ⊤) := by
      rw [EReal.coe_zero]
      exact le_max_left _ _
    have hne : max (0 : EReal) (others.foldl (maFold svc minMAs) ⊤) ≠ ⊤ := by
      intro hcon
      rcases max_eq_iff.mp hcon with ⟨h1, _⟩ | ⟨h1, _⟩
      · exact absurd h1.symm (by simp)
      · exact h h1
    have := EReal.toReal_le_toReal h0 (EReal.coe_ne_bot 0) hne
    rwa [EReal.toReal_coe] at this

/-- limit_clamp_bounds: Go's `min(limit, vMax)` pattern stays in
`[0, vMax]` when both arguments are nonnegative. -/
theorem limit_clamp_bounds (vm l : ℝ) (hvm : 0 ≤ vm) (hl : 0 ≤ l) :
    0 ≤ (if l < vm then l else vm) ∧ (if l < vm then l else vm) ≤ vm := by
  split_ifs with h
  · exact ⟨hl, h.le⟩
  · exact ⟨hvm, le_rfl⟩

/-- getSpeedLimitInfo_bounds: when every declared edge limit is nonnegative
and the vehicle's `VMax` is nonnegative, both reported maxima lie in
`[0, VMax]`. -/
theorem getSpeedLimitInfo_bounds (g : Graph) (svc : SimService) (sl : SpeedLimitInfo)
    (hlim : LimitsOK g) (hvm : 0 ≤ svc.vehicle.kinem.VMaxVal)
    (h : getSpeedLimitInfo g svc = .ok sl) :
    (0 ≤ sl.currentMax ∧ sl.currentMax ≤ svc.vehicle.kinem.VMaxVal) ∧
    (0 ≤ sl.nextMax ∧ sl.nextMax ≤ svc.vehicle.kinem.VMaxVal) := by
  unfold getSpeedLimitInfo at h
  simp only [Bind.bind, Except.bind] at h
  cases he : getEdgeByID g svc.currentPosition.edge with
  | error e => rw [he] at h; exact absurd h (by simp)
  | ok edge =>
    rw [he] at h
    have hedge := getEdgeByID_mem g _ edge he
    dsimp only at h
    have hcm : 0 ≤ (match edge.speedLimit with
          | some l => if l < svc.vehicle.kinem.vmax then l else svc.vehicle.kinem.vmax
          | none => svc.vehicle.kinem.vmax) ∧
        (match edge.speedLimit with
          | some l => if l < svc.vehicle.kinem.vmax then l else svc.vehicle.kinem.vmax
          | none => svc.vehicle.kinem.vmax) ≤ svc.vehicle.kinem.VMaxVal := by
      cases hsl : edge.speedLimit with
      | none => exact ⟨hvm, le_rfl⟩
      | some l =>
        exact limit_clamp_bounds svc.vehicle.kinem.VMaxVal l hvm (hlim edge hedge l hsl)
    by_cases hv : edge.v = svc.nextStop
    · rw [if_pos hv] at h
      simp only [Except.ok.injEq] at h
      subst h
      exact ⟨hcm, le_rfl, hvm⟩
    · rw [if_neg hv] at h
      simp only [Except.ok.injEq] at h
      subst h
      refine ⟨hcm, ?_⟩
      dsimp only
      split
      · rename_i nextEdge hge
        have hne := getNextEdge_mem g _ _ nextEdge hge
        split
        · rename_i l hnl
          exact limit_clamp_bounds svc.vehicle.kinem.VMaxVal l hvm (hlim nextEdge hne l hnl)
        · exact ⟨hvm, le_rfl⟩
      · exact ⟨hvm, le_rfl⟩

/-- proposeMovement_vel_bounds: whatever branch fires, the proposed new
velocity stays in `[0, VMax]` provided the current velocity and both
speed-limit maxima do. -/
theorem proposeMovement_vel_bounds (svc : SimService) (dt d : ℝ) (sl : SpeedLimitInfo)
    (hdt : 0 ≤ dt) (hv0 : 0 ≤ svc.velocity) (hvW : svc.velocity ≤ svc.vehicle.kinem.VMaxVal)
    (hc : 0 ≤ sl.currentMax ∧ sl.currentMax ≤ svc.vehicle.kinem.VMaxVal)
    (hn : 0 ≤ sl.nextMax ∧ sl.nextMax ≤ svc.vehicle.kinem.VMaxVal) :
    0 ≤ (proposeMovement svc dt d sl).2.1 ∧
    (proposeMovement svc dt d sl).2.1 ≤ svc.vehicle.kinem.VMaxVal := by
  have hW : 0 ≤ svc.vehicle.kinem.VMaxVal := le_trans hv0 hvW
  unfold proposeMovement
  dsimp only
  split_ifs <;> (try split) <;>
    first
    | exact ⟨le_rfl, hW⟩
    | exact hc
    | exact ⟨hv0, hvW⟩
    | exact decelerateStep_newV_bounds svc.vehicle.kinem svc.velocity 0 dt
        svc.vehicle.kinem.VMaxVal le_rfl hW hvW hdt
    | exact decelerateStep_newV_bounds svc.vehicle.kinem svc.velocity sl.nextMax dt
        svc.vehicle.kinem.VMaxVal hn.1 hn.2 hvW hdt
    | exact decelerateStep_newV_bounds svc.vehicle.kinem svc.velocity sl.currentMax dt
        svc.vehicle.kinem.VMaxVal hc.1 hc.2 hvW hdt
    | exact accelerateStep_newV_bounds svc.vehicle.kinem svc.velocity sl.currentMax dt
        svc.vehicle.kinem.VMaxVal hv0 hc.1 hvW hc.2 hdt

/-- stepMovingService_vel: one motion-pass step of a moving service keeps
its static definition and keeps its velocity in `[0, VMax]`, whenever every
declared edge limit is nonnegative and the timestep is nonnegative. -/
theorem stepMovingService_vel (g : Graph) (minMAs : List (String × EReal))
    (services : List SimService) (dt : ℝ) (svc svc' : SimService)
    (hlim : LimitsOK g) (hdt : 0 ≤ dt) (hv : VelOK svc)
    (h : stepMovingService g minMAs services dt svc = .ok svc') :
    svc'.service = svc.service ∧ VelOK svc' := by
  obtain ⟨hv0, hvW⟩ := hv
  unfold stepMovingService at h
  simp only [Bind.bind, Except.bind] at h
  cases hd : distanceToNextStop g svc with
  | error e => rw [hd] at h; exact absurd h (by simp)
  | ok d =>
    rw [hd] at h
    cases hsl : getSpeedLimitInfo g svc with
    | error e => rw [hsl] at h; exact absurd h (by simp)
    | ok sl =>
      rw [hsl] at h
      dsimp only at h
      have hbounds := getSpeedLimitInfo_bounds g svc sl hlim (le_trans hv0 hvW) hsl
      cases hap : advancePosition g (g.nodes.length + 1) svc
          (min (proposeMovement svc dt d sl).1
            (computeMaxAllowedDistance svc services minMAs)) with
      | error e => rw [hap] at h; exact absurd h (by simp)
      | ok res =>
        rw [hap] at h
        dsimp only at h
        obtain ⟨hserv, _, _, _, _, _⟩ :=
          advancePosition_preserves g (g.nodes.length + 1) svc _ res.1 res.2
            (by rw [hap])
        by_cases hb : res.1 = true
        · rw [if_pos hb] at h
          simp only [Except.ok.injEq] at h
          subst h
          refine ⟨hserv, le_rfl, ?_⟩
          show (0 : ℝ) ≤ _
          simp only [SimService.arriveAtStop, SimService.startDwell,
            SimService.advanceNextStop, SimService.vehicle, VelOK]
          rw [hserv]
          exact le_trans hv0 hvW
        · rw [if_neg hb] at h
          simp only [Except.ok.injEq] at h
          subst h
          refine ⟨hserv, ?_⟩
          show 0 ≤ _ ∧ _
          simp only [SimService.vehicle]
          rw [hserv]
          by_cases hg : min (proposeMovement svc dt d sl).1
              (computeMaxAllowedDistance svc services minMAs) <
              (proposeMovement svc dt d sl).1
          · rw [if_pos hg]
            have hcm : min (proposeMovement svc dt d sl).1
                (computeMaxAllowedDistance svc services minMAs) =
                computeMaxAllowedDistance svc services minMAs := by
              rcases min_cases (proposeMovement svc dt d sl).1
                  (computeMaxAllowedDistance svc services minMAs) with ⟨he, _⟩ | ⟨he, _⟩
              · exact absurd (he ▸ hg) (lt_irrefl _)
              · exact he
            rw [hcm]
            have hvab := velocityAfterBraking_bounds svc.vehicle.kinem svc.velocity
              (computeMaxAllowedDistance svc services minMAs) hv0
              (cmad_nonneg svc services minMAs)
            unfold constrainedKinematics
            dsimp only
            split_ifs with hz
            · exact ⟨le_rfl, le_trans hv0 hvW⟩
            · exact ⟨hvab.1, le_trans hvab.2 hvW⟩
          · rw [if_neg hg]
            exact proposeMovement_vel_bounds svc dt d sl hdt hv0 hvW hbounds.1 hbounds.2

/-- stepService_vel: the full motion-pass loop body (including the
stationary and dwelling short-circuits) keeps the static definition and the
velocity bounds. -/
theorem stepService_vel (g : Graph) (minMAs : List (String × EReal))
    (services : List SimService) (curTime dt : ℝ) (svc svc' : SimService)
    (hlim : LimitsOK g) (hdt : 0 ≤ dt) (hv : VelOK svc)
    (h : stepService g minMAs services curTime dt svc = .ok svc') :
    svc'.service = svc.service ∧ VelOK svc' := by
  obtain ⟨hv0, hvW⟩ := hv
  unfold stepService at h
  cases hs : svc.state with
  | stationary =>
    rw [hs] at h
    dsimp only at h
    split_ifs at h
    · simp only [Except.ok.injEq] at h
      subst h
      exact ⟨rfl, hv0, hvW⟩
    · simp only [Except.ok.injEq] at h
      subst h
      exact ⟨rfl, hv0, hvW⟩
  | dwelling =>
    rw [hs] at h
    dsimp only at h
    simp only [Except.ok.injEq] at h
    subst h
    unfold SimService.advanceDwell
    dsimp only
    have hs1 : (if svc.state ≠ ServiceState.dwelling then svc.startDwell else svc) = svc :=
      if_neg (by simp [hs])
    rw [hs1]
    by_cases hz : svc.remainingDwell - dt ≤ 0
    · rw [if_pos hz]
      exact ⟨rfl, le_rfl, le_trans hv0 hvW⟩
    · rw [if_neg hz]
      exact ⟨rfl, hv0, hvW⟩
  | accelerating =>
    rw [hs] at h
    exact stepMovingService_vel g minMAs services dt svc svc' hlim hdt ⟨hv0, hvW⟩ h
  | decelerating =>
    rw [hs] at h
    exact stepMovingService_vel g minMAs services dt svc svc' hlim hdt ⟨hv0, hvW⟩ h
  | cruising =>
    rw [hs] at h
    exact stepMovingService_vel g minMAs services dt svc svc' hlim hdt ⟨hv0, hvW⟩ h

/-- motionPass_vel: the motion pass preserves the positional list of static
service definitions and keeps every velocity in `[0, VMax]`. -/
theorem motionPass_vel (g : Graph) (minMAs : List (String × EReal)) (curTime dt : ℝ)
    (hlim : LimitsOK g) (hdt : 0 ≤ dt) :
    ∀ (todo done out : List SimService),
      (∀ s ∈ done, VelOK s) → (∀ s ∈ todo, VelOK s) →
      motionPass g minMAs curTime dt done todo = .ok out →
      out.map (fun s => s.service) =
        done.map (fun s => s.service) ++ todo.map (fun s => s.service) ∧
      ∀ s ∈ out, VelOK s := by
  intro todo
  induction todo with
  | nil =>
    intro done out hd _ h
    rw [motionPass] at h
    simp only [Except.ok.injEq] at h
    subst h
    exact ⟨by simp, hd⟩
  | cons svc rest ih =>
    intro done out hd ht h
    rw [motionPass] at h
    simp only [Bind.bind, Except.bind] at h
    cases hstep : stepService g minMAs (done ++ svc :: rest) curTime dt svc with
    | error e => rw [hstep] at h; exact absurd h (by simp)
    | ok svc' =>
      rw [hstep] at h
      obtain ⟨hserv, hvok⟩ := stepService_vel g minMAs (done ++ svc :: rest) curTime dt
        svc svc' hlim hdt (ht svc (by simp)) hstep
      obtain ⟨hmap, hall⟩ := ih (done ++ [svc']) out
        (by
          intro s hs
          rcases List.mem_append.mp hs with hs | hs
          · exact hd s hs
          · rw [List.mem_singleton.mp hs]; exact hvok)
        (fun s hs => ht s (by simp [hs])) h
      refine ⟨?_, hall⟩
      rw [hmap]
      simp [hserv]

/-- stepF_vel: one engine step logs exactly the updated services, preserves
the positional list of static service definitions, and keeps every velocity
in `[0, VMax]`. -/
theorem stepF_vel (t : TMS) (row : SimulationLogRow) (t' : TMS)
    (hlim : LimitsOK t.graph) (hdt : 0 ≤ t.meta.timeStep)
    (hv : ∀ s ∈ t.services, VelOK s) (h : t.stepF = .ok (row, t')) :
    row.serviceLogs = t'.services.map SimService.getLog ∧
    t'.services.map (fun s => s.service) = t.services.map (fun s => s.service) ∧
    ∀ s ∈ t'.services, VelOK s := by
  unfold TMS.stepF at h
  simp only [Bind.bind, Except.bind] at h
  cases hmp : motionPass t.graph (minMAsOf t.services) t.curTime t.meta.timeStep []
      t.services with
  | error e => rw [hmp] at h; exact absurd h (by simp)
  | ok services' =>
    rw [hmp] at h
    simp only [Except.ok.injEq, Prod.mk.injEq] at h
    obtain ⟨hrow, ht'⟩ := h
    obtain ⟨hmap, hall⟩ := motionPass_vel t.graph (minMAsOf t.services) t.curTime
      t.meta.timeStep hlim hdt t.services [] services' (by simp) hv hmp
    refine ⟨?_, ?_, ?_⟩
    · rw [← hrow, ← ht']
    · rw [← ht']
      simpa using hmap
    · rw [← ht']
      exact hall

/-- runAux_vel: every row the `Run` loop produces snapshots a service list
with the same static definitions as the starting one, all velocities in
`[0, VMax]`. -/
theorem runAux_vel :
    ∀ (fuel : ℕ) (t : TMS) (rows : List SimulationLogRow),
      LimitsOK t.graph → 0 ≤ t.meta.timeStep → (∀ s ∈ t.services, VelOK s) →
      runAux fuel t = .ok rows →
      ∀ row ∈ rows, ∃ svcs : List SimService,
        row.serviceLogs = svcs.map SimService.getLog ∧
        svcs.map (fun s => s.service) = t.services.map (fun s => s.service) ∧
        ∀ s ∈ svcs, VelOK s := by
  intro fuel
  induction fuel with
  | zero => intro t rows _ _ _ h; exact absurd h (by simp [runAux])
  | succ fuel ih =>
    intro t rows hlim hdt hv h
    rw [runAux] at h
    split_ifs at h with hct
    · simp only [Bind.bind, Except.bind] at h
      cases hstep : t.stepF with
      | error e => rw [hstep] at h; exact absurd h (by simp)
      | ok r =>
        rw [hstep] at h
        dsimp only at h
        cases hrec : runAux fuel { r.2 with curTime := r.2.curTime + t.meta.timeStep } with
        | error e => rw [hrec] at h; exact absurd h (by simp)
        | ok rows' =>
          rw [hrec] at h
          simp only [Except.ok.injEq] at h
          subst h
          obtain ⟨hlog, hmap, hall⟩ := stepF_vel t r.1 r.2 hlim hdt hv hstep
          obtain ⟨hmeta, _, _, hgraph⟩ := stepF_preserves t r.2 r.1 (by rw [hstep])
          have hrest := ih { r.2 with curTime := r.2.curTime + t.meta.timeStep } rows'
            (by show LimitsOK r.2.graph; rw [hgraph]; exact hlim)
            (by show (0 : ℝ) ≤ r.2.meta.timeStep; rw [hmeta]; exact hdt)
            (by exact hall) hrec
          intro row hrow
          rcases List.mem_cons.mp hrow with hrow | hrow
          · exact ⟨r.2.services, by rw [hrow]; exact hlog, hmap, hall⟩
          · obtain ⟨svcs, h1, h2, h3⟩ := hrest row hrow
            exact ⟨svcs, h1, h2.trans hmap, h3⟩
    · simp only [Except.ok.injEq] at h
      subst h
      intro row hrow
      exact absurd hrow (List.not_mem_nil row)

/-- runAux_stuck: with a nonpositive timestep and the clock not yet past
the run time, the `Run` loop never terminates (the model's fuel always runs
out), matching the Go loop's divergence. -/
theorem runAux_stuck :
    ∀ (fuel : ℕ) (t : TMS) (rows : List SimulationLogRow),
      t.meta.timeStep ≤ 0 → t.curTime ≤ t.meta.runTime →
      runAux fuel t ≠ .ok rows := by
  intro fuel
  induction fuel with
  | zero => intro t rows _ _ h; exact absurd h (by simp [runAux])
  | succ fuel ih =>
    intro t rows hts hct h
    rw [runAux] at h
    rw [if_pos hct] at h
    simp only [Bind.bind, Except.bind] at h
    cases hstep : t.stepF with
    | error e => rw [hstep] at h; exact absurd h (by simp)
    | ok r =>
      rw [hstep] at h
      dsimp only at h
      cases hrec : runAux fuel { r.2 with curTime := r.2.curTime + t.meta.timeStep } with
      | error e => rw [hrec] at h; exact absurd h (by simp)
      | ok rows' =>
        obtain ⟨hmeta, hcur, _, _⟩ := stepF_preserves t r.2 r.1 (by rw [hstep])
        refine ih { r.2 with curTime := r.2.curTime + t.meta.timeStep } rows' ?_ ?_ hrec
        · show r.2.meta.timeStep ≤ 0
          rw [hmeta]; exact hts
        · show r.2.curTime + t.meta.timeStep ≤ r.2.meta.runTime
          rw [hmeta, hcur]
          calc t.curTime + t.meta.timeStep ≤ t.curTime + 0 := by linarith
            _ = t.curTime := add_zero _
            _ ≤ t.meta.runTime := hct

/-- runWith_ok: a successful bounded run is a successful loop run whose
rows are the log's output. -/
theorem runWith_ok (fuel : ℕ) (t : TMS) (log : SimulationLog)
    (h : t.runWith fuel = .ok log) : runAux fuel t = .ok log.output := by
  unfold TMS.runWith at h
  cases hr : runAux fuel t with
  | error e => rw [hr] at h; exact absurd h (by simp [Except.map])
  | ok rows =>
    rw [hr] at h
    simp only [Except.map, Except.ok.injEq] at h
    rw [← h]

/-- addNode_edges: adding a node never changes the edge list. -/
theorem addNode_edges (g g' : Graph) (n : Node) (h : addNode g n = .ok g') :
    g'.edges = g.edges := by
  unfold addNode at h
  split_ifs at h
  simp only [Except.ok.injEq] at h
  rw [← h]

/-- foldlM_addNode_edges: the node-insertion loop of `NewGraph` never
changes the edge list. -/
theorem foldlM_addNode_edges :
    ∀ (ns : List Node) (g g' : Graph), ns.foldlM addNode g = .ok g' →
      g'.edges = g.edges := by
  intro ns
  induction ns with
  | nil =>
    intro g g' h
    simp only [List.foldlM_nil, pure, Except.pure, Except.ok.injEq] at h
    rw [← h]
  | cons n rest ih =>
    intro g g' h
    simp only [List.foldlM_cons, Bind.bind, Except.bind] at h
    cases ha : addNode g n with
    | error e => rw [ha] at h; exact absurd h (by simp)
    | ok g1 =>
      rw [ha] at h
      exact (ih g1 g' h).trans (addNode_edges g g1 n ha)

/-- addEdge_edges: a successful edge insertion appends exactly that edge. -/
theorem addEdge_edges (g g' : Graph) (e : Edge) (h : addEdge g e = .ok g') :
    g'.edges = g.edges ++ [e] := by
  unfold addEdge at h
  split_ifs at h
  simp only [Except.ok.injEq] at h
  rw [← h]

/-- foldlM_addEdge_edges: every edge of the graph built by the
edge-insertion loop is either pre-existing or one of the inserted edges. -/
theorem foldlM_addEdge_edges :
    ∀ (es : List Edge) (g g' : Graph), es.foldlM addEdge g = .ok g' →
      ∀ e ∈ g'.edges, e ∈ g.edges ∨ e ∈ es := by
  intro es
  induction es with
  | nil =>
    intro g g' h e he
    simp only [List.foldlM_nil, pure, Except.pure, Except.ok.injEq] at h
    rw [← h] at he
    exact .inl he
  | cons e0 rest ih =>
    intro g g' h e he
    simp only [List.foldlM_cons, Bind.bind, Except.bind] at h
    cases ha : addEdge g e0 with
    | error err => rw [ha] at h; exact absurd h (by simp)
    | ok g1 =>
      rw [ha] at h
      rcases ih g1 g' h e he with hmem | hmem
      · rw [addEdge_edges g g1 e0 ha] at hmem
        rcases List.mem_append.mp hmem with hmem | hmem
        · exact .inl hmem
        · exact .inr (by simp [List.mem_singleton.mp hmem])
      · exact .inr (by simp [hmem])

/-- newGraph_edges: every edge of a successfully built graph comes from the
input data. -/
theorem newGraph_edges (data : GraphData) (g : Graph) (h : newGraph data = .ok g) :
    ∀ e ∈ g.edges, e ∈ data.edges := by
  unfold newGraph at h
  simp only [Bind.bind, Except.bind] at h
  cases hn : data.nodes.foldlM addNode { nodes := [], edges := [] } with
  | error e => rw [hn] at h; exact absurd h (by simp)
  | ok g1 =>
    rw [hn] at h
    intro e he
    rcases foldlM_addEdge_edges data.edges g1 g h e he with hmem | hmem
    · rw [foldlM_addNode_edges data.nodes _ g1 hn] at hmem
      exact absurd hmem (List.not_mem_nil e)
    · exact hmem

/-- newSimService_spec: a freshly created simulation service embeds the
given static service and starts at rest. -/
theorem newSimService_spec (svc : Service) (pos : Position) (s : SimService)
    (h : newSimService svc pos = .ok s) : s.service = svc ∧ s.velocity = 0 := by
  unfold newSimService at h
  simp only [Bind.bind, Except.bind] at h
  cases hf : getFirstStop svc with
  | error e => rw [hf] at h; exact absurd h (by simp)
  | ok fs =>
    rw [hf] at h
    simp only [Except.ok.injEq] at h
    rw [← h]
    exact ⟨rfl, rfl⟩

/-- newTMS_fold: the service-construction loop of `NewTMS` appends, per
input service, one simulation service embedding it, at velocity 0. -/
theorem newTMS_fold (g : Graph) :
    ∀ (l : List Service) (acc out : List SimService),
      l.foldlM (newTMSStep g) acc = .ok out →
      out.map (fun s => s.service) = acc.map (fun s => s.service) ++ l ∧
      ∀ s ∈ out, s ∈ acc ∨ s.velocity = 0 := by
  intro l
  induction l with
  | nil =>
    intro acc out h
    simp only [List.foldlM_nil, pure, Except.pure, Except.ok.injEq] at h
    subst h
    exact ⟨by simp, fun s hs => .inl hs⟩
  | cons svc rest ih =>
    intro acc out h
    simp only [List.foldlM_cons, newTMSStep, Bind.bind, Except.bind] at h
    cases hf : getFirstStop svc with
    | error e => rw [hf] at h; exact absurd h (by simp)
    | ok fs =>
      rw [hf] at h
      dsimp only at h
      cases hp : getPathStartPosition g svc.initialPosition fs.1 with
      | error e => rw [hp] at h; exact absurd h (by simp)
      | ok pos =>
        rw [hp] at h
        dsimp only at h
        cases hns : newSimService svc pos with
        | error e => rw [hns] at h; exact absurd h (by simp)
        | ok s0 =>
          rw [hns] at h
          dsimp only at h
          obtain ⟨hm, hv⟩ := ih (acc ++ [s0]) out h
          obtain ⟨hs0s, hs0v⟩ := newSimService_spec svc pos s0 hns
          constructor
          · rw [hm]
            simp [hs0s]
          · intro s hs
            rcases hv s hs with hmem | hv0
            · rcases List.mem_append.mp hmem with hmem | hmem
              · exact .inl hmem
              · rw [List.mem_singleton.mp hmem]
                exact .inr hs0v
            · exact .inr hv0

/-- newTMS_spec: a successfully built engine starts at time 0 with the
input's metadata, one stationary service per input service in order, and a
graph whose edges all come from the input. -/
theorem newTMS_spec (input : SimulationInput) (tms : TMS)
    (h : newTMS input = .ok tms) :
    tms.services.map (fun s => s.service) = input.serviceList ∧
    (∀ s ∈ tms.services, s.velocity = 0) ∧
    (∀ e ∈ tms.graph.edges, e ∈ input.graphData.edges) ∧
    tms.curTime = 0 ∧ tms.meta = input.meta := by
  unfold newTMS at h
  simp only [Bind.bind, Except.bind] at h
  cases hg : newGraph input.graphData with
  | error e => rw [hg] at h; exact absurd h (by simp)
  | ok g =>
    rw [hg] at h
    dsimp only at h
    cases hf : input.serviceList.foldlM (newTMSStep g) ([] : List SimService) with
    | error e => rw [hf] at h; exact absurd h (by simp)
    | ok services =>
      rw [hf] at h
      simp only [Except.ok.injEq] at h
      subst h
      obtain ⟨hm, hv⟩ := newTMS_fold g input.serviceList [] services hf
      refine ⟨by simpa using hm, ?_, ?_, rfl, rfl⟩
      · intro s hs
        rcases hv s hs with hmem | hv0
        · exact absurd hmem (List.not_mem_nil s)
        · exact hv0
      · exact newGraph_edges input.graphData g hg

/-- map_get_pos: positional read through a `List.map` equation. -/
theorem map_get_pos {α β : Type} (f : α → β) (l : List α) (l' : List β)
    (h : l' = l.map f) (i : ℕ) (hi : i < l.length) (hi' : i < l'.length) :
    l'.get ⟨i, hi'⟩ = f (l.get ⟨i, hi⟩) := by
  have he := List.get_of_eq h ⟨i, hi'⟩
  rw [he]
  simp [List.get_eq_getElem]

/-- C2 (amended): with the claim's nonnegative kinematics parameters AND
nonnegative declared edge speed limits — the hypothesis the original claim
is missing — every velocity `Run` logs stays in `[0, VMax]` of the
corresponding input service.  The counterexample `C2_counterexample` shows
the original claim false exactly because a negative edge speed limit is
accepted and drives the velocity to `-1`. -/
theorem C2_velocity_bounds :
    ∀ (input : SimulationInput) (tms : TMS) (log : SimulationLog),
      (∀ svc ∈ input.serviceList, ParamsOK svc.vehicle) →
      (∀ e ∈ input.graphData.edges, ∀ l : ℝ, e.speedLimit = some l → 0 ≤ l) →
      newTMS input = .ok tms → tms.run = .ok log →
      ∀ row ∈ log.output,
        ∀ (i : ℕ) (h1 : i < row.serviceLogs.length) (h2 : i < input.serviceList.length),
          0 ≤ (row.serviceLogs.get ⟨i, h1⟩).velocity ∧
          (row.serviceLogs.get ⟨i, h1⟩).velocity ≤
            (input.serviceList.get ⟨i, h2⟩).vehicle.kinem.VMaxVal := by
  intro input tms log hparams hlimits htms hrun
  obtain ⟨hm, hv0, hedges, hct, hmeta⟩ := newTMS_spec input tms htms
  have hvi : ∀ s ∈ tms.services, VelOK s := by
    intro s hs
    have hmem : s.service ∈ input.serviceList := by
      rw [← hm]; exact List.mem_map_of_mem (fun s => s.service) hs
    have hW : 0 ≤ s.vehicle.kinem.VMaxVal := (hparams s.service hmem).1
    rw [VelOK, hv0 s hs]
    exact ⟨le_rfl, hW⟩
  have hlim : LimitsOK tms.graph := fun e he l hl => hlimits e (hedges e he) l hl
  unfold TMS.run at hrun
  have hrun' := runWith_ok _ _ _ hrun
  intro row hrow i h1 h2
  by_cases hdt : 0 ≤ tms.meta.timeStep
  · obtain ⟨svcs, hlog, hsmap, hsvel⟩ :=
      runAux_vel _ tms log.output hlim hdt hvi hrun' row hrow
    have hchain : input.serviceList = svcs.map (fun s => s.service) :=
      (hsmap.trans hm).symm
    have hlen : svcs.length = input.serviceList.length := by
      rw [hchain]; simp
    have hi : i < svcs.length := by rw [hlen]; exact h2
    have hget : row.serviceLogs.get ⟨i, h1⟩ = (svcs.get ⟨i, hi⟩).getLog :=
      map_get_pos SimService.getLog svcs row.serviceLogs hlog i hi h1
    have hserv : input.serviceList.get ⟨i, h2⟩ = (svcs.get ⟨i, hi⟩).service :=
      map_get_pos (fun s => s.service) svcs input.serviceList hchain i hi h2
    obtain ⟨hb1, hb2⟩ := hsvel (svcs.get ⟨i, hi⟩) (List.get_mem svcs i hi)
    rw [hget, hserv]
    exact ⟨hb1, hb2⟩
  · push_neg at hdt
    by_cases hrt : tms.curTime ≤ tms.meta.runTime
    · exact absurd hrun' (runAux_stuck _ tms log.output hdt.le hrt)
    · have hdone : runAux ((⌊tms.meta.runTime / tms.meta.timeStep⌋).toNat + 2) tms =
          .ok [] :=
        runAux_done ((⌊tms.meta.runTime / tms.meta.timeStep⌋).toNat + 1) tms hrt
      have hout : log.output = [] := by
        have := hdone.symm.trans hrun'
        simpa using this.symm
      rw [hout] at hrow
      exact absurd hrow (List.not_mem_nil row)

/-- C2 witness: the amended bound instantiated on the C4 scenario run — the
final row's logged velocity 0.5 m/s lies in `[0, 20]`. -/
theorem C2_velocity_bounds_witness :
    0 ≤ (c4s6.getLog).velocity ∧
      (c4s6.getLog).velocity ≤ c4Service.vehicle.kinem.VMaxVal := by
  have h := C2_velocity_bounds c4Input (c4T 0 c4s0) c4Log
    (by
      intro svc hsvc
      simp only [c4Input, List.mem_singleton] at hsvc
      subst hsvc
      norm_num [ParamsOK, c4Service, scenarioVehicle])
    (by
      intro e he l hl
      simp only [c4Input, List.mem_singleton] at he
      subst he
      simp [scenarioEdge] at hl)
    c4_newTMS c4_run
    { timestamp := 6, serviceLogs := [c4s6.getLog] } (by simp [c4Log]) 0 (by simp)
    (by simp [c4Input])
  simpa [c4Input] using h

end TMSEngine
